import Mathlib

/-!
# Verification of the inline helpers of `src/common.h`

A shallow embedding of the pure helper functions of the compositor's common
header, followed by theorems about them.

Modelling conventions.

* C `long`, `time_t` and `suseconds_t` values are mathematical integers.
  Signed overflow is undefined behaviour in C, so the integer model describes
  every execution in which no signed operation overflows.
* `timeval_subtract` and `timespec_subtract` are also given on 64-bit `long`
  fields, as `timeval_subtract_long` and `timespec_subtract_long`: there every
  addition, subtraction and multiplication wraps modulo `2^64`, as it does on
  the target machine.
* C integer division and remainder truncate towards zero: they are
  `Int.tdiv` and `Int.tmod`.
* A function that writes through pointer arguments returns the values stored
  through them next to its return value.  The pointer arguments of one call
  are taken to point to distinct objects.
* A C string is the list of its `char`s before the terminating NUL; one
  `Char` stands for one `char`.  Character classes and case mapping are those
  of the C locale.
* `long` has 64 bits and `int` 32 bits (LP64), and a `long` outside the range
  of `int` converts to `int` modulo `2^32`, as the GNU and Clang compilers
  define it.
* The window list is the list of its records from the head on, and a pointer
  to a window record is the record it points to.
* The nodes of the error-ignore list live in a heap of `ignore_t` objects
  indexed by address; `ignore_tail` is the place that holds the NULL pointer
  at the end of the list.
-/

namespace Compton

/-! ## Time values -/

/-- C `struct timeval`: seconds and microseconds. -/
structure timeval where
  tv_sec : Int
  tv_usec : Int
deriving DecidableEq, Repr

/-- C `struct timespec`: seconds and nanoseconds. -/
structure timespec where
  tv_sec : Int
  tv_nsec : Int
deriving DecidableEq, Repr

/-- Constant `NS_PER_SEC` of the header. -/
def NS_PER_SEC : Int := 1000000000

/-- Constant `US_PER_SEC` of the header. -/
def US_PER_SEC : Int := 1000000

/-- Constant `MS_PER_SEC` of the header. -/
def MS_PER_SEC : Int := 1000

/-- What a call of `timeval_subtract` leaves behind: the value stored in
`*result`, the final value of `*y` (the function updates it while carrying)
and the returned `int`. -/
structure timeval_subtract_out where
  result : timeval
  y : timeval
  ret : Int
deriving DecidableEq, Repr

/-- What a call of `timespec_subtract` leaves behind: the value stored in
`*result`, the final value of `*y` and the returned `int`. -/
structure timespec_subtract_out where
  result : timespec
  y : timespec
  ret : Int
deriving DecidableEq, Repr

/-- Function `timeval_ms_cmp` of the header: compares `*ptv` with a time in
milliseconds, first by seconds and then by microseconds. -/
def timeval_ms_cmp (ptv : timeval) (ms : Int) : Int :=
  let sec := Int.tdiv ms MS_PER_SEC
  if ptv.tv_sec > sec then 1
  else if ptv.tv_sec < sec then -1
  else
    let usec := Int.tmod ms MS_PER_SEC * Int.tdiv US_PER_SEC MS_PER_SEC
    if ptv.tv_usec > usec then 1
    else if ptv.tv_usec < usec then -1
    else 0

/-- Function `timeval_subtract` of the header.  The two `if` blocks move whole
seconds between the fields of `*y`; then the fields are subtracted. -/
def timeval_subtract (x y : timeval) : timeval_subtract_out :=
  let y1 : timeval :=
    if x.tv_usec < y.tv_usec then
      let nsec := Int.tdiv (y.tv_usec - x.tv_usec) 1000000 + 1
      { tv_sec := y.tv_sec + nsec, tv_usec := y.tv_usec - 1000000 * nsec }
    else y
  let y2 : timeval :=
    if x.tv_usec - y1.tv_usec > 1000000 then
      let nsec := Int.tdiv (x.tv_usec - y1.tv_usec) 1000000
      { tv_sec := y1.tv_sec - nsec, tv_usec := y1.tv_usec + 1000000 * nsec }
    else y1
  { result := { tv_sec := x.tv_sec - y2.tv_sec, tv_usec := x.tv_usec - y2.tv_usec }
    y := y2
    ret := if x.tv_sec < y2.tv_sec then 1 else 0 }

/-- Function `timespec_subtract` of the header, the nanosecond twin of
`timeval_subtract`. -/
def timespec_subtract (x y : timespec) : timespec_subtract_out :=
  let y1 : timespec :=
    if x.tv_nsec < y.tv_nsec then
      let nsec := Int.tdiv (y.tv_nsec - x.tv_nsec) NS_PER_SEC + 1
      { tv_sec := y.tv_sec + nsec, tv_nsec := y.tv_nsec - NS_PER_SEC * nsec }
    else y
  let y2 : timespec :=
    if x.tv_nsec - y1.tv_nsec > NS_PER_SEC then
      let nsec := Int.tdiv (x.tv_nsec - y1.tv_nsec) NS_PER_SEC
      { tv_sec := y1.tv_sec - nsec, tv_nsec := y1.tv_nsec + NS_PER_SEC * nsec }
    else y1
  { result := { tv_sec := x.tv_sec - y2.tv_sec, tv_nsec := x.tv_nsec - y2.tv_nsec }
    y := y2
    ret := if x.tv_sec < y2.tv_sec then 1 else 0 }

/-! ## C strings and the C library -/

/-- A C string: its characters before the terminating NUL. -/
abbrev CStr := List Char

/-- C library `isspace` in the C locale: space, `\t`, `\n`, `\v`, `\f`, `\r`. -/
def isspace (c : Char) : Bool :=
  c.toNat = 32 || (9 ≤ c.toNat && c.toNat ≤ 13)

/-- C library `tolower` in the C locale: only `A`..`Z` change. -/
def tolower (c : Char) : Char :=
  if 65 ≤ c.toNat ∧ c.toNat ≤ 90 then Char.ofNat (c.toNat + 32) else c

/-- C library `strcmp`, reduced to the sign of its result: the strings are
compared character by character, a proper prefix sorts first. -/
def strcmp : CStr → CStr → Int
  | [], [] => 0
  | [], _ :: _ => -1
  | _ :: _, [] => 1
  | a :: s, b :: t =>
    if a = b then strcmp s t
    else if a.toNat < b.toNat then -1 else 1

/-- C library `strcasecmp`, reduced to the sign of its result: as `strcmp`
after `tolower` on every character. -/
def strcasecmp : CStr → CStr → Int
  | [], [] => 0
  | [], _ :: _ => -1
  | _ :: _, [] => 1
  | a :: s, b :: t =>
    if tolower a = tolower b then strcasecmp s t
    else if (tolower a).toNat < (tolower b).toNat then -1 else 1

/-- Two strings are equal ignoring letter case. -/
def eq_ignoring_case (s t : CStr) : Prop :=
  s.map tolower = t.map tolower

instance (s t : CStr) : Decidable (eq_ignoring_case s t) := by
  unfold eq_ignoring_case
  exact inferInstance

/-- Value of a character as a digit of `strtol`: `0`..`9`, then the letters of
either case as 10..35. -/
def digit_val (c : Char) : Option Nat :=
  if 48 ≤ c.toNat ∧ c.toNat ≤ 57 then some (c.toNat - 48)
  else if 97 ≤ c.toNat ∧ c.toNat ≤ 122 then some (c.toNat - 97 + 10)
  else if 65 ≤ c.toNat ∧ c.toNat ≤ 90 then some (c.toNat - 65 + 10)
  else none

/-- The digit loop of `strtol`: reads digits below `base` from the front of
the string, and returns the accumulated magnitude and the number of digits
read. -/
def strtol_digits (base : Nat) : CStr → Nat → Nat → Nat × Nat
  | [], acc, n => (acc, n)
  | c :: cs, acc, n =>
    match digit_val c with
    | some d => if d < base then strtol_digits base cs (acc * base + d) (n + 1) else (acc, n)
    | none => (acc, n)

/-- Largest value of a C `long` (64 bits). -/
def LONG_MAX : Int := 9223372036854775807

/-- Smallest value of a C `long` (64 bits). -/
def LONG_MIN : Int := -9223372036854775808

/-- C library `strtol(nptr, &endptr, base)`: returns the value and the offset
of `endptr` from `nptr`.  Leading white space is skipped, one sign is
accepted, with base 0 the prefix selects base 16 (`0x`, `0X` before a
hexadecimal digit), 8 (a leading `0`) or 10; then the longest run of digits is
read.  Without any digit no conversion is made: the value is 0 and `endptr`
is `nptr` (offset 0).  A value outside the range of `long` is clamped to
`LONG_MAX` or `LONG_MIN`. -/
def strtol (nptr : CStr) (base : Nat) : Int × Nat :=
  let ws := (nptr.takeWhile isspace).length
  let s1 := nptr.drop ws
  let neg : Bool := s1.head? = some '-'
  let sg : Nat := if s1.head? = some '-' ∨ s1.head? = some '+' then 1 else 0
  let s2 := s1.drop sg
  let hexpre : Bool :=
    (base = 0 || base = 16) &&
      match s2 with
      | z :: x :: d :: _ =>
        z = '0' && (x = 'x' || x = 'X') &&
          (match digit_val d with
           | some v => decide (v < 16)
           | none => false)
      | _ => false
  let b : Nat :=
    if base = 0 then (if hexpre then 16 else if s2.head? = some '0' then 8 else 10)
    else base
  let pre : Nat := if hexpre then 2 else 0
  let r := strtol_digits b (s2.drop pre) 0 0
  if r.2 = 0 then (0, 0)
  else
    let v : Int := if neg then -(r.1 : Int) else (r.1 : Int)
    let clamped : Int := if v > LONG_MAX then LONG_MAX else if v < LONG_MIN then LONG_MIN else v
    (clamped, ws + sg + pre + r.2)

/-- Conversion of a `long` to `int`: the value modulo `2^32`, taken in the
range of `int`. -/
def long_to_int (v : Int) : Int :=
  (v + 2147483648) % 4294967296 - 2147483648

/-! ## Time values on 64-bit `long` -/

/-- The value of a `long` operation whose mathematical result is `v`: the
result modulo `2^64`, taken in the range `LONG_MIN .. LONG_MAX`. -/
def wrap_long (v : Int) : Int :=
  (v + 9223372036854775808) % 18446744073709551616 - 9223372036854775808

/-- A value of type `long`. -/
def is_long (v : Int) : Prop := LONG_MIN ≤ v ∧ v ≤ LONG_MAX

instance (v : Int) : Decidable (is_long v) := by
  unfold is_long
  exact inferInstance

/-- Function `timeval_subtract` of the header on 64-bit `long` fields: each
`+`, `-` and `*` of the source wraps modulo `2^64`. -/
def timeval_subtract_long (x y : timeval) : timeval_subtract_out :=
  let y1 : timeval :=
    if x.tv_usec < y.tv_usec then
      let nsec := wrap_long (Int.tdiv (wrap_long (y.tv_usec - x.tv_usec)) 1000000 + 1)
      { tv_sec := wrap_long (y.tv_sec + nsec),
        tv_usec := wrap_long (y.tv_usec - wrap_long (1000000 * nsec)) }
    else y
  let y2 : timeval :=
    if wrap_long (x.tv_usec - y1.tv_usec) > 1000000 then
      let nsec := Int.tdiv (wrap_long (x.tv_usec - y1.tv_usec)) 1000000
      { tv_sec := wrap_long (y1.tv_sec - nsec),
        tv_usec := wrap_long (y1.tv_usec + wrap_long (1000000 * nsec)) }
    else y1
  { result := { tv_sec := wrap_long (x.tv_sec - y2.tv_sec),
                tv_usec := wrap_long (x.tv_usec - y2.tv_usec) }
    y := y2
    ret := if x.tv_sec < y2.tv_sec then 1 else 0 }

/-- Function `timespec_subtract` of the header on 64-bit `long` fields: each
`+`, `-` and `*` of the source wraps modulo `2^64`. -/
def timespec_subtract_long (x y : timespec) : timespec_subtract_out :=
  let y1 : timespec :=
    if x.tv_nsec < y.tv_nsec then
      let nsec := wrap_long (Int.tdiv (wrap_long (y.tv_nsec - x.tv_nsec)) NS_PER_SEC + 1)
      { tv_sec := wrap_long (y.tv_sec + nsec),
        tv_nsec := wrap_long (y.tv_nsec - wrap_long (NS_PER_SEC * nsec)) }
    else y
  let y2 : timespec :=
    if wrap_long (x.tv_nsec - y1.tv_nsec) > NS_PER_SEC then
      let nsec := Int.tdiv (wrap_long (x.tv_nsec - y1.tv_nsec)) NS_PER_SEC
      { tv_sec := wrap_long (y1.tv_sec - nsec),
        tv_nsec := wrap_long (y1.tv_nsec + wrap_long (NS_PER_SEC * nsec)) }
    else y1
  { result := { tv_sec := wrap_long (x.tv_sec - y2.tv_sec),
                tv_nsec := wrap_long (x.tv_nsec - y2.tv_nsec) }
    y := y2
    ret := if x.tv_sec < y2.tv_sec then 1 else 0 }

/-! ## Session data -/

/-- Constant `CGLX_MAX_BUFFER_AGE` of the header. -/
def CGLX_MAX_BUFFER_AGE : Int := 5

/-- Enumerator `NUM_VSYNC` of `vsync_t`: the number of vsync modes
(`VSYNC_NONE` = 0 up to `VSYNC_OPENGL_MSWC` = 5). -/
def NUM_VSYNC : Nat := 6

/-- Enumerator `BKEND_XRENDER` of `enum backend`. -/
def BKEND_XRENDER : Nat := 0

/-- Enumerator `BKEND_GLX` of `enum backend`. -/
def BKEND_GLX : Nat := 1

/-- Enumerator `BKEND_XR_GLX_HYBRID` of `enum backend`. -/
def BKEND_XR_GLX_HYBRID : Nat := 2

/-- Enumerator `NUM_BKEND` of `enum backend`. -/
def NUM_BKEND : Nat := 3

/-- Swap method `SWAPM_BUFFER_AGE`. -/
def SWAPM_BUFFER_AGE : Int := -1

/-- Swap method `SWAPM_UNDEFINED`. -/
def SWAPM_UNDEFINED : Int := 0

/-- Swap method `SWAPM_COPY`. -/
def SWAPM_COPY : Int := 1

/-- Swap method `SWAPM_EXCHANGE`. -/
def SWAPM_EXCHANGE : Int := 2

/-- The fields of `options_t` that the functions below read or write.  The
enumerations `enum backend` and `vsync_t` are kept as their integer values. -/
structure options_t where
  backend : Nat := 0
  glx_swap_method : Int := 0
  force_win_blend : Bool := false
  show_all_xerrors : Bool := false
  vsync : Nat := 0
  track_focus : Bool := false
deriving DecidableEq, Repr

/-- Value `XCB_MAP_STATE_VIEWABLE` of the X protocol (unmapped 0, unviewable
1, viewable 2). -/
def XCB_MAP_STATE_VIEWABLE : Nat := 2

/-- The field of the window attributes `w->a` that the functions below read. -/
structure win_attr where
  map_state : Nat := 0
deriving DecidableEq, Repr

/-- The fields of a window record `win` that the functions below read: the
window id, the attributes `a`, the paint mode `mode` (a `winmode_t`, kept as
its integer value) and the flag set when the window is destroyed.  The `next`
pointer is the order of the records in the list of the session.  A pointer to
a window record is represented by the record it points to. -/
structure win where
  id : Nat
  a : win_attr := {}
  mode : Nat := 0
  destroyed : Bool := false
deriving DecidableEq, Repr

/-- A rectangle of a pixman region. -/
structure box32 where
  x1 : Int
  y1 : Int
  x2 : Int
  y2 : Int
deriving DecidableEq, Repr

/-- A `region_t` (pixman region): the list of its rectangles; the empty
region has none. -/
abbrev region_t := List box32

/-- Pixman `pixman_region32_clear`: the region becomes the empty region. -/
def pixman_region32_clear (_r : region_t) : region_t := []

/-- C `ignore_t`: a node of the error-ignore linked list.  `next` is the
address of the next node, `none` for the NULL pointer. -/
structure ignore_t where
  next : Option Nat := none
  sequence : Nat
deriving DecidableEq, Repr

/-- A place that holds an `ignore_t *` and that `ignore_tail` can point to:
the member `ignore_head` of the session, or the member `next` of the node at
an address. -/
inductive ignore_ref where
  | head
  | next (a : Nat)
deriving DecidableEq, Repr

/-- The allocated `ignore_t` objects: address and contents, the latest write
to an address first. -/
abbrev ignore_heap := List (Nat × ignore_t)

/-- Read of the node at address `a`; `none` when no node is allocated there. -/
def heap_read : ignore_heap → Nat → Option ignore_t
  | [], _ => none
  | (b, n) :: rest, a => if b = a then some n else heap_read rest a

/-- Write of the node at address `a`. -/
def heap_write (mem : ignore_heap) (a : Nat) (n : ignore_t) : ignore_heap :=
  (a, n) :: mem

/-- The fields of `session_t` that the functions below read or write: the
options `o`, the pending damage `all_damage`, the damage history
`all_damage_last` (an array of `CGLX_MAX_BUFFER_AGE` regions), the head and
tail pointers of the error-ignore list, the linked window list `list` from
the head on, and the active window. -/
structure session_t where
  o : options_t := {}
  all_damage : region_t := []
  all_damage_last : List region_t := [[], [], [], [], []]
  ignore_head : Option Nat := none
  ignore_tail : ignore_ref := ignore_ref.head
  list : List win := []
  active_win : Option win := none
deriving DecidableEq, Repr

/-- A table of strings such as `VSYNC_STRS` and `BACKEND_STRS`: an array of
`const char *`, where `none` is a NULL pointer. -/
abbrev strtab := List (Option CStr)

/-- The entries of a string table before its first NULL pointer. -/
def strtab_entries : strtab → List CStr
  | some s :: rest => s :: strtab_entries rest
  | _ => []

/-- How the loop `for (i = 0; TABLE[i]; ++i) if (!strcasecmp(str, TABLE[i]))`
of `parse_vsync` and `parse_backend` ends: at a matching entry `i`, at the
NULL pointer that terminates the table, or past the end of an array that
holds no NULL pointer (an out-of-bounds read, undefined behaviour). -/
inductive scan_result where
  | found (i : Nat)
  | terminator
  | overrun
deriving DecidableEq, Repr

/-- The scanning loop shared by `parse_vsync` and `parse_backend`, on the part
of the table from index `i` on. -/
def strtab_scan (str : CStr) : strtab → Nat → scan_result
  | [], _ => scan_result.overrun
  | none :: _, _ => scan_result.terminator
  | some s :: rest, i =>
    if strcasecmp str s = 0 then scan_result.found i
    else strtab_scan str rest (i + 1)

/-- Function `parse_vsync` of the header, over the table `VSYNC_STRS` (defined
outside the header).  Returns the `bool` result and the session after the
call; `none` stands for the undefined behaviour of a table without NULL
terminator.  The error message printed on failure is not modelled. -/
def parse_vsync (VSYNC_STRS : strtab) (ps : session_t) (str : CStr) :
    Option (Bool × session_t) :=
  match strtab_scan str VSYNC_STRS 0 with
  | scan_result.found i => some (true, { ps with o := { ps.o with vsync := i } })
  | scan_result.terminator => some (false, ps)
  | scan_result.overrun => none

/-- Function `parse_backend` of the header, over the table `BACKEND_STRS`
(defined outside the header).  Returns the `bool` result and the session
after the call; `none` stands for the undefined behaviour of a table without
NULL terminator.  The error message printed on failure is not modelled. -/
def parse_backend (BACKEND_STRS : strtab) (ps : session_t) (str : CStr) :
    Option (Bool × session_t) :=
  match strtab_scan str BACKEND_STRS 0 with
  | scan_result.found i => some (true, { ps with o := { ps.o with backend := i } })
  | scan_result.overrun => none
  | scan_result.terminator =>
    if strcasecmp str "xr_glx_hybird".toList = 0 then
      some (true, { ps with o := { ps.o with backend := BKEND_XR_GLX_HYBRID } })
    else if strcasecmp str "xr-glx-hybrid".toList = 0 then
      some (true, { ps with o := { ps.o with backend := BKEND_XR_GLX_HYBRID } })
    else some (false, ps)

/-- Function `parse_glx_swap_method` of the header.  Returns the `bool` result
and the session after the call.  `pc` is kept as its offset from `str`; the
error messages printed on failure are not modelled. -/
def parse_glx_swap_method (ps : session_t) (str : CStr) : Bool × session_t :=
  if strcmp "undefined".toList str = 0 then
    (true, { ps with o := { ps.o with glx_swap_method := 0 } })
  else if strcmp "copy".toList str = 0 then
    (true, { ps with o := { ps.o with glx_swap_method := 1 } })
  else if strcmp "exchange".toList str = 0 then
    (true, { ps with o := { ps.o with glx_swap_method := 2 } })
  else if strcmp "buffer-age".toList str = 0 then
    (true, { ps with o := { ps.o with glx_swap_method := -1 } })
  else
    let r := strtol str 0
    let age : Int := long_to_int r.1
    let pc : Nat := r.2
    if pc = 0 then (false, ps)
    else if (str.drop pc).any (fun c => !isspace c) then (false, ps)
    else if age > CGLX_MAX_BUFFER_AGE + 1 ∨ age < -1 then (false, ps)
    else (true, { ps with o := { ps.o with glx_swap_method := age } })

/-- The loop of `find_win` over the window list: the first record with the
given id that is not destroyed, `none` for the NULL pointer. -/
def find_win_loop (id : Nat) : List win → Option win
  | [] => none
  | w :: rest => if w.id = id ∧ w.destroyed = false then some w else find_win_loop id rest

/-- Function `find_win` of the header: `none` is the NULL pointer. -/
def find_win (ps : session_t) (id : Nat) : Option win :=
  if id = 0 then none else find_win_loop id ps.list

/-- Index `i` is the first entry of `l` that equals `str` ignoring letter
case. -/
def first_match (l : List CStr) (str : CStr) (i : Nat) : Prop :=
  (∃ s, l[i]? = some s ∧ eq_ignoring_case str s) ∧
    ∀ j t, j < i → l[j]? = some t → ¬ eq_ignoring_case str t

/-- A table of the shape declared for `VSYNC_STRS`: one name for each of the
`NUM_VSYNC` modes, in the order of the enumerators, and a NULL pointer. -/
def vsync_strs_sample : strtab :=
  [some "none".toList, some "drm".toList, some "opengl".toList,
   some "opengl-oml".toList, some "opengl-swc".toList, some "opengl-mswc".toList, none]

/-- A table of the shape declared for `BACKEND_STRS`: one name for each of the
`NUM_BKEND` backends, in the order of the enumerators, and a NULL pointer. -/
def backend_strs_sample : strtab :=
  [some "xrender".toList, some "glx".toList, some "xr_glx_hybrid".toList, none]

/-! ## The error-ignore list, focus, paint mode and damage history -/

/-- Function `set_ignore` of the header, over the allocated `ignore_t` nodes
`mem`.  `cmalloc` is the result of the allocation: the address of the new
node, or `none` for NULL.  Returns the nodes and the session after the call;
`none` stands for the undefined behaviour of a store through an `ignore_tail`
that points into no allocated node. -/
def set_ignore (mem : ignore_heap) (ps : session_t) (sequence : Nat) (cmalloc : Option Nat) :
    Option (ignore_heap × session_t) :=
  if ps.o.show_all_xerrors then some (mem, ps)
  else
    match cmalloc with
    | none => some (mem, ps)
    | some i =>
      let mem1 := heap_write mem i { sequence := sequence, next := none }
      match ps.ignore_tail with
      | ignore_ref.head =>
        some (mem1, { ps with ignore_head := some i, ignore_tail := ignore_ref.next i })
      | ignore_ref.next a =>
        match heap_read mem1 a with
        | none => none
        | some n =>
          some (heap_write mem1 a { n with next := some i },
                { ps with ignore_tail := ignore_ref.next i })

/-- The linked list that starts with the pointer `p`, stored in the place `r`,
holds exactly the sequence numbers `q` in this order and ends in a NULL
pointer, and `tail` is the place that holds this NULL pointer. -/
def ignore_chain (mem : ignore_heap) : ignore_ref → Option Nat → List Nat → ignore_ref → Bool
  | r, p, [], tail => decide (p = none) && decide (tail = r)
  | _, p, s :: q, tail =>
    match p with
    | none => false
    | some a =>
      match heap_read mem a with
      | none => false
      | some n => decide (n.sequence = s) && ignore_chain mem (ignore_ref.next a) n.next q tail

/-- The error-ignore queue of the session is `q`: the list from `ignore_head`
holds the sequence numbers `q`, and `ignore_tail` points to the `next` member
of its last node, or to `ignore_head` when the list is empty. -/
def ignore_queue (mem : ignore_heap) (ps : session_t) (q : List Nat) : Bool :=
  ignore_chain mem ignore_ref.head ps.ignore_head q ps.ignore_tail

/-- Function `win_is_focused_real` of the header.  The comparison of the
pointers `ps->active_win` and `w` is the comparison of the records. -/
def win_is_focused_real (ps : session_t) (w : win) : Bool :=
  decide (w.a.map_state = XCB_MAP_STATE_VIEWABLE) && decide (ps.active_win = some w)

/-- Function `find_focused` of the header: `none` is the NULL pointer. -/
def find_focused (ps : session_t) : Option win :=
  if !ps.o.track_focus then none
  else
    match ps.active_win with
    | some w => if win_is_focused_real ps w then some w else none
    | none => none

/-- Function `free_all_damage_last` of the header: the loop over
`i = 0 .. CGLX_MAX_BUFFER_AGE - 1` clears `all_damage_last[i]`. -/
def free_all_damage_last (ps : session_t) : session_t :=
  (List.range CGLX_MAX_BUFFER_AGE.toNat).foldl
    (fun st i =>
      { st with all_damage_last :=
          st.all_damage_last.set i (pixman_region32_clear (st.all_damage_last.getD i [])) })
    ps

/-- Function `win_is_solid` of the header.  The enumerator `WMODE_SOLID` of
`winmode_t` is declared outside the header and is a parameter. -/
def win_is_solid (WMODE_SOLID : Nat) (ps : session_t) (w : win) : Bool :=
  decide (WMODE_SOLID = w.mode) && !ps.o.force_win_blend

/-- The registry invariant: the window list holds at most one record that is
not destroyed for each window id. -/
def one_live_per_id (l : List win) : Prop :=
  ((l.filter (fun w => !w.destroyed)).map win.id).Nodup

instance (l : List win) : Decidable (one_live_per_id l) := by
  unfold one_live_per_id
  exact inferInstance

/-! ## Theorems: time values -/

/-- Truncating division of a non-negative value below the divisor is zero. -/
theorem tdiv_small {a b : Int} (h0 : 0 ≤ a) (h1 : a < b) : Int.tdiv a b = 0 := by
  rw [Int.tdiv_eq_ediv h0 (by omega)]
  exact Int.ediv_eq_zero_of_lt h0 h1

/-- C1: `timeval_subtract` stores the exact difference of the two times, for
all integer field values: the microsecond total of the stored result equals
the total of `x` minus the total of `y` as it was before the call. -/
theorem timeval_subtract_exact (x y : timeval) :
    (timeval_subtract x y).result.tv_sec * 1000000 + (timeval_subtract x y).result.tv_usec
      = (x.tv_sec * 1000000 + x.tv_usec) - (y.tv_sec * 1000000 + y.tv_usec) := by
  unfold timeval_subtract
  simp only
  split_ifs <;> ring

/-- Under normalised inputs the first carry block of `timeval_subtract` moves
exactly one second and the second block does not fire. -/
theorem timeval_subtract_norm (x y : timeval)
    (hx0 : 0 ≤ x.tv_usec) (hx1 : x.tv_usec < 1000000)
    (hy0 : 0 ≤ y.tv_usec) (hy1 : y.tv_usec < 1000000) :
    timeval_subtract x y =
      if x.tv_usec < y.tv_usec then
        { result := { tv_sec := x.tv_sec - (y.tv_sec + 1),
                      tv_usec := x.tv_usec - (y.tv_usec - 1000000) }
          y := { tv_sec := y.tv_sec + 1, tv_usec := y.tv_usec - 1000000 }
          ret := if x.tv_sec < y.tv_sec + 1 then 1 else 0 }
      else
        { result := { tv_sec := x.tv_sec - y.tv_sec, tv_usec := x.tv_usec - y.tv_usec }
          y := y
          ret := if x.tv_sec < y.tv_sec then 1 else 0 } := by
  unfold timeval_subtract
  by_cases h : x.tv_usec < y.tv_usec
  · have hd : Int.tdiv (y.tv_usec - x.tv_usec) 1000000 = 0 :=
      tdiv_small (by omega) (by omega)
    have h2 : ¬ (x.tv_usec - (y.tv_usec - 1000000 * (0 + 1)) > 1000000) := by omega
    simp only [h, hd, if_true, h2, if_false]
    norm_num
  · have h2 : ¬ (x.tv_usec - y.tv_usec > 1000000) := by omega
    simp only [h, if_false, h2]

/-- The nanosecond twin of `timeval_subtract_norm`. -/
theorem timespec_subtract_norm (x y : timespec)
    (hx0 : 0 ≤ x.tv_nsec) (hx1 : x.tv_nsec < 1000000000)
    (hy0 : 0 ≤ y.tv_nsec) (hy1 : y.tv_nsec < 1000000000) :
    timespec_subtract x y =
      if x.tv_nsec < y.tv_nsec then
        { result := { tv_sec := x.tv_sec - (y.tv_sec + 1),
                      tv_nsec := x.tv_nsec - (y.tv_nsec - 1000000000) }
          y := { tv_sec := y.tv_sec + 1, tv_nsec := y.tv_nsec - 1000000000 }
          ret := if x.tv_sec < y.tv_sec + 1 then 1 else 0 }
      else
        { result := { tv_sec := x.tv_sec - y.tv_sec, tv_nsec := x.tv_nsec - y.tv_nsec }
          y := y
          ret := if x.tv_sec < y.tv_sec then 1 else 0 } := by
  unfold timespec_subtract NS_PER_SEC
  by_cases h : x.tv_nsec < y.tv_nsec
  · have hd : Int.tdiv (y.tv_nsec - x.tv_nsec) 1000000000 = 0 :=
      tdiv_small (by omega) (by omega)
    have h2 : ¬ (x.tv_nsec - (y.tv_nsec - 1000000000 * (0 + 1)) > 1000000000) := by omega
    simp only [h, hd, if_true, h2, if_false]
    norm_num
  · have h2 : ¬ (x.tv_nsec - y.tv_nsec > 1000000000) := by omega
    simp only [h, if_false, h2]

/-- On mathematical integers and normalised inputs, the value returned by
`timeval_subtract` is 1 exactly when `x` denotes a strictly earlier time than
`y`, and 0 otherwise. -/
theorem timeval_subtract_sign (x y : timeval)
    (hx0 : 0 ≤ x.tv_usec) (hx1 : x.tv_usec < 1000000)
    (hy0 : 0 ≤ y.tv_usec) (hy1 : y.tv_usec < 1000000) :
    (timeval_subtract x y).ret =
      if x.tv_sec * 1000000 + x.tv_usec < y.tv_sec * 1000000 + y.tv_usec then 1 else 0 := by
  rw [timeval_subtract_norm x y hx0 hx1 hy0 hy1]
  by_cases h : x.tv_usec < y.tv_usec
  · simp only [h, if_true]
    by_cases hs : x.tv_sec < y.tv_sec + 1
    · rw [if_pos hs, if_pos (by omega)]
    · rw [if_neg hs, if_neg (by omega)]
  · simp only [h, if_false]
    by_cases hs : x.tv_sec < y.tv_sec
    · rw [if_pos hs, if_pos (by omega)]
    · rw [if_neg hs, if_neg (by omega)]

/-- C3: for normalised inputs the microsecond field stored by
`timeval_subtract` is itself normalised: `0 <= result.tv_usec < 1000000`. -/
theorem timeval_subtract_usec_range (x y : timeval)
    (hx0 : 0 ≤ x.tv_usec) (hx1 : x.tv_usec < 1000000)
    (hy0 : 0 ≤ y.tv_usec) (hy1 : y.tv_usec < 1000000) :
    0 ≤ (timeval_subtract x y).result.tv_usec ∧
      (timeval_subtract x y).result.tv_usec < 1000000 := by
  rw [timeval_subtract_norm x y hx0 hx1 hy0 hy1]
  by_cases h : x.tv_usec < y.tv_usec
  · simp only [h, if_true]
    constructor <;> omega
  · simp only [h, if_false]
    constructor <;> omega

/-- Witness of C3: 1.25 s minus 0.75 s stores 500000 microseconds. -/
theorem timeval_subtract_usec_range_witness :
    0 ≤ (timeval_subtract ⟨1, 250000⟩ ⟨0, 750000⟩).result.tv_usec ∧
      (timeval_subtract ⟨1, 250000⟩ ⟨0, 750000⟩).result.tv_usec < 1000000 :=
  timeval_subtract_usec_range ⟨1, 250000⟩ ⟨0, 750000⟩
    (by decide) (by decide) (by decide) (by decide)

/-- On mathematical integers and normalised inputs, `timespec_subtract`
stores a normalised result whose nanosecond total is the total of `x` minus
the total of `y`, and returns 1 if that difference is negative and 0
otherwise. -/
theorem timespec_subtract_correct (x y : timespec)
    (hx0 : 0 ≤ x.tv_nsec) (hx1 : x.tv_nsec < 1000000000)
    (hy0 : 0 ≤ y.tv_nsec) (hy1 : y.tv_nsec < 1000000000) :
    (0 ≤ (timespec_subtract x y).result.tv_nsec ∧
      (timespec_subtract x y).result.tv_nsec < 1000000000) ∧
    (timespec_subtract x y).result.tv_sec * 1000000000
        + (timespec_subtract x y).result.tv_nsec
      = (x.tv_sec * 1000000000 + x.tv_nsec) - (y.tv_sec * 1000000000 + y.tv_nsec) ∧
    (timespec_subtract x y).ret =
      if (x.tv_sec * 1000000000 + x.tv_nsec) - (y.tv_sec * 1000000000 + y.tv_nsec) < 0
      then 1 else 0 := by
  rw [timespec_subtract_norm x y hx0 hx1 hy0 hy1]
  by_cases h : x.tv_nsec < y.tv_nsec
  · simp only [h, if_true]
    refine ⟨⟨by omega, by omega⟩, by ring, ?_⟩
    by_cases hs : x.tv_sec < y.tv_sec + 1
    · rw [if_pos hs, if_pos (by omega)]
    · rw [if_neg hs, if_neg (by omega)]
  · simp only [h, if_false]
    refine ⟨⟨by omega, by omega⟩, by ring, ?_⟩
    by_cases hs : x.tv_sec < y.tv_sec
    · rw [if_pos hs, if_pos (by omega)]
    · rw [if_neg hs, if_neg (by omega)]

/-- C5: for a normalised `timeval` and a non-negative time `ms` in
milliseconds, `timeval_ms_cmp` returns 1 if the timeval is later than `ms`,
0 if both denote the same time and -1 if it is earlier. -/
theorem timeval_ms_cmp_correct (tv : timeval) (ms : Int)
    (h0 : 0 ≤ tv.tv_usec) (h1 : tv.tv_usec < 1000000) (hms : 0 ≤ ms) :
    timeval_ms_cmp tv ms =
      if tv.tv_sec * 1000000 + tv.tv_usec > ms * 1000 then 1
      else if tv.tv_sec * 1000000 + tv.tv_usec = ms * 1000 then 0
      else -1 := by
  unfold timeval_ms_cmp MS_PER_SEC US_PER_SEC
  have hd : Int.tdiv ms 1000 = ms / 1000 := Int.tdiv_eq_ediv hms (by decide)
  have hm : Int.tmod ms 1000 = ms % 1000 := Int.tmod_eq_emod hms (by decide)
  have hk : Int.tdiv 1000000 1000 = 1000 := by decide
  simp only [hd, hm, hk]
  split_ifs <;> omega

/-- Witness of C5: 2.5 s against 2500 ms. -/
theorem timeval_ms_cmp_correct_witness :
    timeval_ms_cmp ⟨2, 500000⟩ 2500 =
      if (2 : Int) * 1000000 + 500000 > 2500 * 1000 then 1
      else if (2 : Int) * 1000000 + 500000 = 2500 * 1000 then 0
      else -1 :=
  timeval_ms_cmp_correct ⟨2, 500000⟩ 2500 (by decide) (by decide) (by decide)

/-! ## Theorems: time values on 64-bit `long` -/

/-- A `long` operation whose mathematical result is in the range of `long`
yields this result. -/
theorem wrap_long_of_range (v : Int) (h0 : -9223372036854775808 ≤ v)
    (h1 : v ≤ 9223372036854775807) : wrap_long v = v := by
  unfold wrap_long
  omega

/-- On normalised inputs the sub-second arithmetic of `timeval_subtract_long`
never overflows: at most one second is carried, and only the operations on
`tv_sec` can wrap. -/
theorem timeval_subtract_long_norm (x y : timeval)
    (hx0 : 0 ≤ x.tv_usec) (hx1 : x.tv_usec < 1000000)
    (hy0 : 0 ≤ y.tv_usec) (hy1 : y.tv_usec < 1000000) :
    timeval_subtract_long x y =
      if x.tv_usec < y.tv_usec then
        { result := { tv_sec := wrap_long (x.tv_sec - wrap_long (y.tv_sec + 1)),
                      tv_usec := x.tv_usec - (y.tv_usec - 1000000) }
          y := { tv_sec := wrap_long (y.tv_sec + 1), tv_usec := y.tv_usec - 1000000 }
          ret := if x.tv_sec < wrap_long (y.tv_sec + 1) then 1 else 0 }
      else
        { result := { tv_sec := wrap_long (x.tv_sec - y.tv_sec),
                      tv_usec := x.tv_usec - y.tv_usec }
          y := y
          ret := if x.tv_sec < y.tv_sec then 1 else 0 } := by
  unfold timeval_subtract_long
  by_cases h : x.tv_usec < y.tv_usec
  · have e1 : wrap_long (y.tv_usec - x.tv_usec) = y.tv_usec - x.tv_usec :=
      wrap_long_of_range _ (by omega) (by omega)
    have e2 : Int.tdiv (y.tv_usec - x.tv_usec) 1000000 = 0 :=
      tdiv_small (by omega) (by omega)
    have e3 : wrap_long (0 + 1) = 1 := by decide
    have e4 : wrap_long (1000000 * 1) = 1000000 := by decide
    have e5 : wrap_long (y.tv_usec - 1000000) = y.tv_usec - 1000000 :=
      wrap_long_of_range _ (by omega) (by omega)
    have e6 : wrap_long (x.tv_usec - (y.tv_usec - 1000000))
        = x.tv_usec - (y.tv_usec - 1000000) :=
      wrap_long_of_range _ (by omega) (by omega)
    have h2 : ¬ (x.tv_usec - (y.tv_usec - 1000000) > 1000000) := by omega
    simp only [h, if_true, e1, e2, e3, e4, e5, e6, h2, if_false]
  · have e7 : wrap_long (x.tv_usec - y.tv_usec) = x.tv_usec - y.tv_usec :=
      wrap_long_of_range _ (by omega) (by omega)
    have h2 : ¬ (x.tv_usec - y.tv_usec > 1000000) := by omega
    simp only [h, if_false, e7, h2]

/-- The nanosecond twin of `timeval_subtract_long_norm`. -/
theorem timespec_subtract_long_norm (x y : timespec)
    (hx0 : 0 ≤ x.tv_nsec) (hx1 : x.tv_nsec < 1000000000)
    (hy0 : 0 ≤ y.tv_nsec) (hy1 : y.tv_nsec < 1000000000) :
    timespec_subtract_long x y =
      if x.tv_nsec < y.tv_nsec then
        { result := { tv_sec := wrap_long (x.tv_sec - wrap_long (y.tv_sec + 1)),
                      tv_nsec := x.tv_nsec - (y.tv_nsec - 1000000000) }
          y := { tv_sec := wrap_long (y.tv_sec + 1), tv_nsec := y.tv_nsec - 1000000000 }
          ret := if x.tv_sec < wrap_long (y.tv_sec + 1) then 1 else 0 }
      else
        { result := { tv_sec := wrap_long (x.tv_sec - y.tv_sec),
                      tv_nsec := x.tv_nsec - y.tv_nsec }
          y := y
          ret := if x.tv_sec < y.tv_sec then 1 else 0 } := by
  unfold timespec_subtract_long NS_PER_SEC
  by_cases h : x.tv_nsec < y.tv_nsec
  · have e1 : wrap_long (y.tv_nsec - x.tv_nsec) = y.tv_nsec - x.tv_nsec :=
      wrap_long_of_range _ (by omega) (by omega)
    have e2 : Int.tdiv (y.tv_nsec - x.tv_nsec) 1000000000 = 0 :=
      tdiv_small (by omega) (by omega)
    have e3 : wrap_long (0 + 1) = 1 := by decide
    have e4 : wrap_long (1000000000 * 1) = 1000000000 := by decide
    have e5 : wrap_long (y.tv_nsec - 1000000000) = y.tv_nsec - 1000000000 :=
      wrap_long_of_range _ (by omega) (by omega)
    have e6 : wrap_long (x.tv_nsec - (y.tv_nsec - 1000000000))
        = x.tv_nsec - (y.tv_nsec - 1000000000) :=
      wrap_long_of_range _ (by omega) (by omega)
    have h2 : ¬ (x.tv_nsec - (y.tv_nsec - 1000000000) > 1000000000) := by omega
    simp only [h, if_true, e1, e2, e3, e4, e5, e6, h2, if_false]
  · have e7 : wrap_long (x.tv_nsec - y.tv_nsec) = x.tv_nsec - y.tv_nsec :=
      wrap_long_of_range _ (by omega) (by omega)
    have h2 : ¬ (x.tv_nsec - y.tv_nsec > 1000000000) := by omega
    simp only [h, if_false, e7, h2]

/-- When neither the carry into `y.tv_sec` nor the subtraction of the seconds
leaves the range of `long`, `timeval_subtract_long` computes what
`timeval_subtract` computes on mathematical integers. -/
theorem timeval_subtract_long_eq (x y : timeval)
    (hx0 : 0 ≤ x.tv_usec) (hx1 : x.tv_usec < 1000000)
    (hy0 : 0 ≤ y.tv_usec) (hy1 : y.tv_usec < 1000000)
    (hys : is_long y.tv_sec)
    (hcarry : x.tv_usec < y.tv_usec → y.tv_sec < LONG_MAX)
    (hdiff : is_long (x.tv_sec - y.tv_sec - (if x.tv_usec < y.tv_usec then 1 else 0))) :
    timeval_subtract_long x y = timeval_subtract x y := by
  rw [timeval_subtract_long_norm x y hx0 hx1 hy0 hy1, timeval_subtract_norm x y hx0 hx1 hy0 hy1]
  unfold is_long LONG_MIN LONG_MAX at *
  by_cases h : x.tv_usec < y.tv_usec
  · have hc := hcarry h
    rw [if_pos h] at hdiff
    have e1 : wrap_long (y.tv_sec + 1) = y.tv_sec + 1 :=
      wrap_long_of_range _ (by omega) (by omega)
    have e2 : wrap_long (x.tv_sec - (y.tv_sec + 1)) = x.tv_sec - (y.tv_sec + 1) :=
      wrap_long_of_range _ (by omega) (by omega)
    simp only [h, if_true, e1, e2]
  · rw [if_neg h] at hdiff
    have e2 : wrap_long (x.tv_sec - y.tv_sec) = x.tv_sec - y.tv_sec :=
      wrap_long_of_range _ (by omega) (by omega)
    simp only [h, if_false, e2]

/-- The nanosecond twin of `timeval_subtract_long_eq`. -/
theorem timespec_subtract_long_eq (x y : timespec)
    (hx0 : 0 ≤ x.tv_nsec) (hx1 : x.tv_nsec < 1000000000)
    (hy0 : 0 ≤ y.tv_nsec) (hy1 : y.tv_nsec < 1000000000)
    (hys : is_long y.tv_sec)
    (hcarry : x.tv_nsec < y.tv_nsec → y.tv_sec < LONG_MAX)
    (hdiff : is_long (x.tv_sec - y.tv_sec - (if x.tv_nsec < y.tv_nsec then 1 else 0))) :
    timespec_subtract_long x y = timespec_subtract x y := by
  rw [timespec_subtract_long_norm x y hx0 hx1 hy0 hy1,
    timespec_subtract_norm x y hx0 hx1 hy0 hy1]
  unfold is_long LONG_MIN LONG_MAX at *
  by_cases h : x.tv_nsec < y.tv_nsec
  · have hc := hcarry h
    rw [if_pos h] at hdiff
    have e1 : wrap_long (y.tv_sec + 1) = y.tv_sec + 1 :=
      wrap_long_of_range _ (by omega) (by omega)
    have e2 : wrap_long (x.tv_sec - (y.tv_sec + 1)) = x.tv_sec - (y.tv_sec + 1) :=
      wrap_long_of_range _ (by omega) (by omega)
    simp only [h, if_true, e1, e2]
  · rw [if_neg h] at hdiff
    have e2 : wrap_long (x.tv_sec - y.tv_sec) = x.tv_sec - y.tv_sec :=
      wrap_long_of_range _ (by omega) (by omega)
    simp only [h, if_false, e2]

/-- C2, counterexample: `x` = 0 s and `y` = `LONG_MAX` s + 1 us are normalised
`long` values and `x` is strictly earlier than `y`, but the carry
`y.tv_sec + 1` wraps to `LONG_MIN` and `timeval_subtract_long` returns 0. -/
theorem timeval_subtract_long_sign_overflow :
    ((0 : Int) ≤ (⟨0, 0⟩ : timeval).tv_usec ∧ (⟨0, 0⟩ : timeval).tv_usec < 1000000) ∧
    ((0 : Int) ≤ (⟨9223372036854775807, 1⟩ : timeval).tv_usec ∧
      (⟨9223372036854775807, 1⟩ : timeval).tv_usec < 1000000) ∧
    (is_long (⟨0, 0⟩ : timeval).tv_sec ∧ is_long (⟨9223372036854775807, 1⟩ : timeval).tv_sec) ∧
    (⟨0, 0⟩ : timeval).tv_sec * 1000000 + (⟨0, 0⟩ : timeval).tv_usec
      < (⟨9223372036854775807, 1⟩ : timeval).tv_sec * 1000000
        + (⟨9223372036854775807, 1⟩ : timeval).tv_usec ∧
    (timeval_subtract_long ⟨0, 0⟩ ⟨9223372036854775807, 1⟩).y.tv_sec = LONG_MIN ∧
    (timeval_subtract_long ⟨0, 0⟩ ⟨9223372036854775807, 1⟩).ret = 0 := by
  decide

/-- C2, amended: for normalised inputs (`0 <= tv_usec < 1000000` in both) with
a `long` `y.tv_sec`, if the carry into `y.tv_sec` does not overflow (no second
is carried, or `y.tv_sec < LONG_MAX`), the value returned by
`timeval_subtract_long` is 1 exactly when `x` denotes a strictly earlier time
than `y`, and 0 otherwise. -/
theorem timeval_subtract_long_sign (x y : timeval)
    (hx0 : 0 ≤ x.tv_usec) (hx1 : x.tv_usec < 1000000)
    (hy0 : 0 ≤ y.tv_usec) (hy1 : y.tv_usec < 1000000)
    (hys : is_long y.tv_sec)
    (hcarry : x.tv_usec < y.tv_usec → y.tv_sec < LONG_MAX) :
    (timeval_subtract_long x y).ret =
      if x.tv_sec * 1000000 + x.tv_usec < y.tv_sec * 1000000 + y.tv_usec then 1 else 0 := by
  rw [timeval_subtract_long_norm x y hx0 hx1 hy0 hy1]
  unfold is_long LONG_MIN LONG_MAX at *
  by_cases h : x.tv_usec < y.tv_usec
  · have hc := hcarry h
    have e1 : wrap_long (y.tv_sec + 1) = y.tv_sec + 1 :=
      wrap_long_of_range _ (by omega) (by omega)
    simp only [h, if_true, e1]
    by_cases hs : x.tv_sec < y.tv_sec + 1
    · rw [if_pos hs, if_pos (by omega)]
    · rw [if_neg hs, if_neg (by omega)]
  · simp only [h, if_false]
    by_cases hs : x.tv_sec < y.tv_sec
    · rw [if_pos hs, if_pos (by omega)]
    · rw [if_neg hs, if_neg (by omega)]

/-- Witness of C2, amended: 1.5 s minus 2.75 s carries a second and returns 1. -/
theorem timeval_subtract_long_sign_witness :
    (timeval_subtract_long ⟨1, 500000⟩ ⟨2, 750000⟩).ret =
      if (1 : Int) * 1000000 + 500000 < 2 * 1000000 + 750000 then 1 else 0 :=
  timeval_subtract_long_sign ⟨1, 500000⟩ ⟨2, 750000⟩
    (by decide) (by decide) (by decide) (by decide) (by decide) (by decide)

/-- The loop of `find_win` returns nothing exactly when no record of the list
has the id and is live. -/
theorem find_win_loop_eq_none (id : Nat) (l : List win) :
    find_win_loop id l = none ↔ ∀ w ∈ l, ¬ (w.id = id ∧ w.destroyed = false) := by
  induction l with
  | nil => simp [find_win_loop]
  | cons v rest ih =>
    unfold find_win_loop
    by_cases hv : v.id = id ∧ v.destroyed = false
    · rw [if_pos hv]
      constructor
      · intro h
        cases h
      · intro h
        exact absurd hv (h v (List.mem_cons_self v rest))
    · rw [if_neg hv, ih]
      simp only [List.mem_cons, forall_eq_or_imp]
      exact ⟨fun h => ⟨hv, h⟩, fun h => h.2⟩

/-- A record returned by the loop of `find_win` has the id, is live, and no
record before it in the list has the id and is live. -/
theorem find_win_loop_eq_some (id : Nat) (l : List win) (w : win)
    (h : find_win_loop id l = some w) :
    w.id = id ∧ w.destroyed = false ∧
      ∃ pre post, l = pre ++ w :: post ∧
        ∀ v ∈ pre, ¬ (v.id = id ∧ v.destroyed = false) := by
  induction l with
  | nil => simp [find_win_loop] at h
  | cons v rest ih =>
    unfold find_win_loop at h
    by_cases hv : v.id = id ∧ v.destroyed = false
    · rw [if_pos hv] at h
      cases h
      exact ⟨hv.1, hv.2, [], rest, rfl, by simp⟩
    · rw [if_neg hv] at h
      obtain ⟨h1, h2, pre, post, h3, h4⟩ := ih h
      refine ⟨h1, h2, v :: pre, post, by rw [h3]; rfl, ?_⟩
      intro u hu
      rcases List.mem_cons.mp hu with rfl | hu
      · exact hv
      · exact h4 u hu

/-- C6: `find_win` returns NULL exactly when the id is 0 or the list holds no
live record with that id; a record it returns has the id, is not destroyed,
and is the first such record of the window list. -/
theorem find_win_correct (ps : session_t) (id : Nat) :
    (find_win ps id = none ↔
      id = 0 ∨ ∀ w ∈ ps.list, ¬ (w.id = id ∧ w.destroyed = false)) ∧
    (∀ w, find_win ps id = some w →
      w.id = id ∧ w.destroyed = false ∧
        ∃ pre post, ps.list = pre ++ w :: post ∧
          ∀ v ∈ pre, ¬ (v.id = id ∧ v.destroyed = false)) := by
  unfold find_win
  by_cases h0 : id = 0
  · simp [h0]
  · rw [if_neg h0]
    refine ⟨?_, fun w hw => find_win_loop_eq_some id ps.list w hw⟩
    rw [find_win_loop_eq_none]
    simp [h0]

/-! ## Theorems: option parsing -/

/-- `strcmp` returns 0 exactly on equal strings. -/
theorem strcmp_eq_zero (s t : CStr) : strcmp s t = 0 ↔ s = t := by
  induction s generalizing t with
  | nil => cases t <;> simp [strcmp]
  | cons a s ih =>
    cases t with
    | nil => simp [strcmp]
    | cons b t =>
      unfold strcmp
      by_cases hab : a = b
      · simp [hab, ih]
      · rw [if_neg hab]
        split_ifs <;> simp [hab]

/-- `strcasecmp` returns 0 exactly on strings that are equal ignoring letter
case. -/
theorem strcasecmp_eq_zero (s t : CStr) : strcasecmp s t = 0 ↔ eq_ignoring_case s t := by
  unfold eq_ignoring_case
  induction s generalizing t with
  | nil => cases t <;> simp [strcasecmp]
  | cons a s ih =>
    cases t with
    | nil => simp [strcasecmp]
    | cons b t =>
      unfold strcasecmp
      by_cases hab : tolower a = tolower b
      · simp [hab, ih]
      · rw [if_neg hab]
        split_ifs <;> simp [hab]

/-- The first matching index of a list is unique. -/
theorem first_match_unique (l : List CStr) (str : CStr) (i j : Nat)
    (hi : first_match l str i) (hj : first_match l str j) : i = j := by
  obtain ⟨⟨s, hs, hse⟩, hmin⟩ := hi
  obtain ⟨⟨t, ht, hte⟩, hmin'⟩ := hj
  rcases Nat.lt_trichotomy i j with h | h | h
  · exact absurd hse (hmin' i s h hs)
  · exact h
  · exact absurd hte (hmin j t h ht)

/-- A first match lies inside the list. -/
theorem first_match_lt_length (l : List CStr) (str : CStr) (i : Nat)
    (hi : first_match l str i) : i < l.length := by
  obtain ⟨⟨s, hs, _⟩, _⟩ := hi
  by_contra hcon
  rw [List.getElem?_eq_none (by omega)] at hs
  cases hs

/-- The entries of a table of names followed by one NULL pointer are the
names. -/
theorem strtab_entries_names (names : List CStr) :
    strtab_entries (names.map some ++ [none]) = names := by
  induction names with
  | nil => rfl
  | cons n rest ih => simp [strtab_entries, ih]

/-- On a table with a NULL terminator the scanning loop ends either at the
first matching entry before the terminator, or at the terminator when no
entry before it matches. -/
theorem strtab_scan_spec (str : CStr) (tab : strtab) (i : Nat) (hterm : none ∈ tab) :
    (∃ k, strtab_scan str tab i = scan_result.found (i + k) ∧
        first_match (strtab_entries tab) str k) ∨
    (strtab_scan str tab i = scan_result.terminator ∧
        ∀ s ∈ strtab_entries tab, ¬ eq_ignoring_case str s) := by
  induction tab generalizing i with
  | nil => simp at hterm
  | cons e rest ih =>
    cases e with
    | none =>
      right
      simp [strtab_scan, strtab_entries]
    | some s =>
      have hrest : none ∈ rest := by
        rcases List.mem_cons.mp hterm with h | h
        · cases h
        · exact h
      unfold strtab_scan
      by_cases hs : strcasecmp str s = 0
      · left
        refine ⟨0, by simp [hs], ⟨s, by simp [strtab_entries], (strcasecmp_eq_zero _ _).mp hs⟩, ?_⟩
        intro j t hj
        omega
      · rw [if_neg hs]
        have hne : ¬ eq_ignoring_case str s := fun h => hs ((strcasecmp_eq_zero _ _).mpr h)
        rcases ih (i + 1) hrest with ⟨k, hk, ⟨⟨t, ht, hte⟩, hmin⟩⟩ | ⟨hk, hno⟩
        · left
          refine ⟨k + 1, by rw [hk]; congr 1; omega, ⟨t, by simpa [strtab_entries] using ht, hte⟩, ?_⟩
          intro j u hj hu
          cases j with
          | zero =>
            simp [strtab_entries] at hu
            rw [← hu]
            exact hne
          | succ j =>
            simp [strtab_entries] at hu
            exact hmin j u (by omega) hu
        · right
          refine ⟨hk, ?_⟩
          intro u hu
          simp [strtab_entries] at hu
          rcases hu with rfl | hu
          · exact hne
          · exact hno u hu

/-- C10: on a table with a NULL terminator `parse_vsync` returns, and it
returns true exactly when the argument equals, ignoring letter case, an entry
before the terminator; it then stores the index of the first such entry as
the vsync mode and leaves the session unchanged otherwise.  When the table is
`NUM_VSYNC` names followed by NULL, the stored mode is below `NUM_VSYNC`. -/
theorem parse_vsync_correct (VSYNC_STRS : strtab) (ps : session_t) (str : CStr)
    (hterm : none ∈ VSYNC_STRS) :
    ∃ r ps1, parse_vsync VSYNC_STRS ps str = some (r, ps1) ∧
      (r = true ↔ ∃ s ∈ strtab_entries VSYNC_STRS, eq_ignoring_case str s) ∧
      (r = true → ∃ i, first_match (strtab_entries VSYNC_STRS) str i ∧
        ps1 = { ps with o := { ps.o with vsync := i } }) ∧
      (r = false → ps1 = ps) ∧
      (∀ names : List CStr, VSYNC_STRS = names.map some ++ [none] →
        names.length = NUM_VSYNC → r = true → ps1.o.vsync < NUM_VSYNC) := by
  unfold parse_vsync
  rcases strtab_scan_spec str VSYNC_STRS 0 hterm with ⟨k, hk, hfm⟩ | ⟨hk, hno⟩
  · rw [Nat.zero_add] at hk
    rw [hk]
    refine ⟨true, _, rfl, ?_, ?_, ?_, ?_⟩
    · obtain ⟨⟨s, hs, hse⟩, _⟩ := hfm
      exact ⟨fun _ => ⟨s, List.getElem?_mem hs, hse⟩, fun _ => rfl⟩
    · exact fun _ => ⟨k, hfm, rfl⟩
    · intro h
      cases h
    · intro names hn hlen _
      have hlt := first_match_lt_length _ _ _ hfm
      rw [hn, strtab_entries_names, hlen] at hlt
      exact hlt
  · rw [hk]
    refine ⟨false, ps, rfl, ?_, ?_, ?_, ?_⟩
    · constructor
      · intro h
        cases h
      · rintro ⟨s, hs, hse⟩
        exact absurd hse (hno s hs)
    · intro h
      cases h
    · exact fun _ => rfl
    · intro _ _ _ h
      cases h

/-- Witness of C10: the sample table has a NULL terminator, and the theorem
applies to the argument `OpenGL-SWC`. -/
theorem parse_vsync_correct_witness :
    none ∈ vsync_strs_sample ∧
    ∃ r ps1, parse_vsync vsync_strs_sample {} "OpenGL-SWC".toList = some (r, ps1) ∧
      (r = true ↔ ∃ s ∈ strtab_entries vsync_strs_sample,
        eq_ignoring_case "OpenGL-SWC".toList s) ∧
      (r = true → ∃ i, first_match (strtab_entries vsync_strs_sample) "OpenGL-SWC".toList i ∧
        ps1 = { ({} : session_t) with o := { ({} : session_t).o with vsync := i } }) ∧
      (r = false → ps1 = {}) ∧
      (∀ names : List CStr, vsync_strs_sample = names.map some ++ [none] →
        names.length = NUM_VSYNC → r = true → ps1.o.vsync < NUM_VSYNC) :=
  ⟨by decide, parse_vsync_correct vsync_strs_sample {} "OpenGL-SWC".toList (by decide)⟩

/-- C9: on a table with a NULL terminator `parse_backend` returns, and it
returns true exactly when the argument equals, ignoring letter case, an entry
before the terminator or one of the spellings `xr_glx_hybird` and
`xr-glx-hybrid`.  On a table match it stores the index of the first matching
entry; without a table match, either spelling stores `BKEND_XR_GLX_HYBRID`;
on failure the session is unchanged. -/
theorem parse_backend_correct (BACKEND_STRS : strtab) (ps : session_t) (str : CStr)
    (hterm : none ∈ BACKEND_STRS) :
    ∃ r ps1, parse_backend BACKEND_STRS ps str = some (r, ps1) ∧
      (r = true ↔
        ((∃ s ∈ strtab_entries BACKEND_STRS, eq_ignoring_case str s) ∨
          eq_ignoring_case str "xr_glx_hybird".toList ∨
          eq_ignoring_case str "xr-glx-hybrid".toList)) ∧
      ((∃ s ∈ strtab_entries BACKEND_STRS, eq_ignoring_case str s) →
        ∃ i, first_match (strtab_entries BACKEND_STRS) str i ∧
          ps1 = { ps with o := { ps.o with backend := i } }) ∧
      ((¬ ∃ s ∈ strtab_entries BACKEND_STRS, eq_ignoring_case str s) →
        (eq_ignoring_case str "xr_glx_hybird".toList ∨
          eq_ignoring_case str "xr-glx-hybrid".toList) →
        ps1 = { ps with o := { ps.o with backend := BKEND_XR_GLX_HYBRID } }) ∧
      (r = false → ps1 = ps) := by
  unfold parse_backend
  rcases strtab_scan_spec str BACKEND_STRS 0 hterm with ⟨k, hk, hfm⟩ | ⟨hk, hno⟩
  · rw [Nat.zero_add] at hk
    rw [hk]
    have hex : ∃ s ∈ strtab_entries BACKEND_STRS, eq_ignoring_case str s := by
      obtain ⟨⟨s, hs, hse⟩, _⟩ := hfm
      exact ⟨s, List.getElem?_mem hs, hse⟩
    refine ⟨true, _, rfl, ?_, ?_, ?_, ?_⟩
    · exact ⟨fun _ => Or.inl hex, fun _ => rfl⟩
    · exact fun _ => ⟨k, hfm, rfl⟩
    · exact fun h => absurd hex h
    · intro h
      cases h
  · rw [hk]
    have hnex : ¬ ∃ s ∈ strtab_entries BACKEND_STRS, eq_ignoring_case str s := by
      rintro ⟨s, hs, hse⟩
      exact hno s hs hse
    simp only [strcasecmp_eq_zero]
    by_cases h1 : eq_ignoring_case str "xr_glx_hybird".toList
    · rw [if_pos h1]
      refine ⟨true, _, rfl, ?_, ?_, ?_, ?_⟩
      · exact ⟨fun _ => Or.inr (Or.inl h1), fun _ => rfl⟩
      · exact fun h => absurd h hnex
      · exact fun _ _ => rfl
      · intro h
        cases h
    · rw [if_neg h1]
      by_cases h2 : eq_ignoring_case str "xr-glx-hybrid".toList
      · rw [if_pos h2]
        refine ⟨true, _, rfl, ?_, ?_, ?_, ?_⟩
        · exact ⟨fun _ => Or.inr (Or.inr h2), fun _ => rfl⟩
        · exact fun h => absurd h hnex
        · exact fun _ _ => rfl
        · intro h
          cases h
      · rw [if_neg h2]
        refine ⟨false, ps, rfl, ?_, ?_, ?_, ?_⟩
        · constructor
          · intro h
            cases h
          · rintro (h | h | h)
            · exact absurd h hnex
            · exact absurd h h1
            · exact absurd h h2
        · exact fun h => absurd h hnex
        · rintro _ (h | h)
          · exact absurd h h1
          · exact absurd h h2
        · exact fun _ => rfl

/-- Witness of C9: the sample table has a NULL terminator, and the theorem
applies to the argument `XR-GLX-Hybrid`. -/
theorem parse_backend_correct_witness :
    none ∈ backend_strs_sample ∧
    ∃ r ps1, parse_backend backend_strs_sample {} "XR-GLX-Hybrid".toList = some (r, ps1) ∧
      (r = true ↔
        ((∃ s ∈ strtab_entries backend_strs_sample,
            eq_ignoring_case "XR-GLX-Hybrid".toList s) ∨
          eq_ignoring_case "XR-GLX-Hybrid".toList "xr_glx_hybird".toList ∨
          eq_ignoring_case "XR-GLX-Hybrid".toList "xr-glx-hybrid".toList)) ∧
      ((∃ s ∈ strtab_entries backend_strs_sample,
          eq_ignoring_case "XR-GLX-Hybrid".toList s) →
        ∃ i, first_match (strtab_entries backend_strs_sample) "XR-GLX-Hybrid".toList i ∧
          ps1 = { ({} : session_t) with o := { ({} : session_t).o with backend := i } }) ∧
      ((¬ ∃ s ∈ strtab_entries backend_strs_sample,
          eq_ignoring_case "XR-GLX-Hybrid".toList s) →
        (eq_ignoring_case "XR-GLX-Hybrid".toList "xr_glx_hybird".toList ∨
          eq_ignoring_case "XR-GLX-Hybrid".toList "xr-glx-hybrid".toList) →
        ps1 = { ({} : session_t) with
                o := { ({} : session_t).o with backend := BKEND_XR_GLX_HYBRID } }) ∧
      (r = false → ps1 = {}) :=
  ⟨by decide, parse_backend_correct backend_strs_sample {} "XR-GLX-Hybrid".toList (by decide)⟩

/-- C8: `parse_glx_swap_method` accepts each alias and stores its swap-method
constant: `undefined` stores `SWAPM_UNDEFINED`, `copy` stores `SWAPM_COPY`,
`exchange` stores `SWAPM_EXCHANGE` and `buffer-age` stores
`SWAPM_BUFFER_AGE`; the constants are 0, 1, 2 and -1. -/
theorem parse_glx_swap_method_alias (ps : session_t) :
    parse_glx_swap_method ps "undefined".toList
      = (true, { ps with o := { ps.o with glx_swap_method := SWAPM_UNDEFINED } }) ∧
    parse_glx_swap_method ps "copy".toList
      = (true, { ps with o := { ps.o with glx_swap_method := SWAPM_COPY } }) ∧
    parse_glx_swap_method ps "exchange".toList
      = (true, { ps with o := { ps.o with glx_swap_method := SWAPM_EXCHANGE } }) ∧
    parse_glx_swap_method ps "buffer-age".toList
      = (true, { ps with o := { ps.o with glx_swap_method := SWAPM_BUFFER_AGE } }) ∧
    SWAPM_UNDEFINED = 0 ∧ SWAPM_COPY = 1 ∧ SWAPM_EXCHANGE = 2 ∧ SWAPM_BUFFER_AGE = -1 := by
  refine ⟨?_, ?_, ?_, ?_, rfl, rfl, rfl, rfl⟩
  · unfold parse_glx_swap_method
    rw [if_pos (by decide)]
    rfl
  · unfold parse_glx_swap_method
    rw [if_neg (by decide), if_pos (by decide)]
    rfl
  · unfold parse_glx_swap_method
    rw [if_neg (by decide), if_neg (by decide), if_pos (by decide)]
    rfl
  · unfold parse_glx_swap_method
    rw [if_neg (by decide), if_neg (by decide), if_neg (by decide), if_pos (by decide)]
    rfl

/-- A string that is none of the four aliases reaches the number branch of
`parse_glx_swap_method`, whose outcome is decided by the result of `strtol`
after its conversion to `int`. -/
theorem parse_glx_swap_method_number (ps : session_t) (str : CStr)
    (h1 : str ≠ "undefined".toList) (h2 : str ≠ "copy".toList)
    (h3 : str ≠ "exchange".toList) (h4 : str ≠ "buffer-age".toList) :
    parse_glx_swap_method ps str =
      if (strtol str 0).2 = 0 then (false, ps)
      else if (str.drop (strtol str 0).2).any (fun c => !isspace c) then (false, ps)
      else if long_to_int (strtol str 0).1 > 6 ∨ long_to_int (strtol str 0).1 < -1 then
        (false, ps)
      else (true, { ps with o := { ps.o with
                      glx_swap_method := long_to_int (strtol str 0).1 } }) := by
  unfold parse_glx_swap_method
  rw [if_neg (fun h => h1 ((strcmp_eq_zero _ _).mp h).symm),
    if_neg (fun h => h2 ((strcmp_eq_zero _ _).mp h).symm),
    if_neg (fun h => h3 ((strcmp_eq_zero _ _).mp h).symm),
    if_neg (fun h => h4 ((strcmp_eq_zero _ _).mp h).symm)]
  rfl

/-- Conversion from `long` to `int` keeps a value in the range of `int`. -/
theorem long_to_int_of_range (n : Int) (h0 : -2147483648 ≤ n) (h1 : n ≤ 2147483647) :
    long_to_int n = n := by
  unfold long_to_int
  omega

/-- The part of C7 that holds: when `strtol` reads the argument as a number
`n` in the range of `int` followed by nothing but white space, the call
succeeds exactly when `-1 <= n <= CGLX_MAX_BUFFER_AGE + 1` and then stores
`n`. -/
theorem parse_glx_swap_method_int_range (ps : session_t) (str : CStr) (n : Int) (k : Nat)
    (hs : strtol str 0 = (n, k)) (hk : k ≠ 0)
    (hsp : ∀ c ∈ str.drop k, isspace c = true)
    (hn0 : -2147483648 ≤ n) (hn1 : n ≤ 2147483647) :
    parse_glx_swap_method ps str =
      if -1 ≤ n ∧ n ≤ CGLX_MAX_BUFFER_AGE + 1 then
        (true, { ps with o := { ps.o with glx_swap_method := n } })
      else (false, ps) := by
  have hk2 : (strtol str 0).2 ≠ 0 := by rw [hs]; exact hk
  have h1 : str ≠ "undefined".toList := by
    intro h
    rw [h] at hk2
    exact hk2 (by decide)
  have h2 : str ≠ "copy".toList := by
    intro h
    rw [h] at hk2
    exact hk2 (by decide)
  have h3 : str ≠ "exchange".toList := by
    intro h
    rw [h] at hk2
    exact hk2 (by decide)
  have h4 : str ≠ "buffer-age".toList := by
    intro h
    rw [h] at hk2
    exact hk2 (by decide)
  have hany : (str.drop k).any (fun c => !isspace c) = false := by
    rw [List.any_eq_false]
    intro c hc
    simp [hsp c hc]
  rw [parse_glx_swap_method_number ps str h1 h2 h3 h4, hs]
  dsimp only
  rw [if_neg hk, hany, if_neg Bool.false_ne_true, long_to_int_of_range n hn0 hn1]
  unfold CGLX_MAX_BUFFER_AGE
  by_cases hr : -1 ≤ n ∧ n ≤ 5 + 1
  · have hq : ¬ (n > 6 ∨ n < -1) := by omega
    rw [if_pos hr, if_neg hq]
  · have hq : n > 6 ∨ n < -1 := by omega
    rw [if_neg hr, if_pos hq]

/-- An instance of the range result: the argument `6` followed by a blank is
accepted and stores 6. -/
theorem parse_glx_swap_method_int_range_six :
    parse_glx_swap_method {} "6 ".toList =
      if (-1 : Int) ≤ 6 ∧ (6 : Int) ≤ CGLX_MAX_BUFFER_AGE + 1 then
        (true, { ({} : session_t) with
                 o := { ({} : session_t).o with glx_swap_method := 6 } })
      else (false, {}) :=
  parse_glx_swap_method_int_range {} "6 ".toList 6 1 (by decide) (by decide) (by decide)
    (by decide) (by decide)

/-- A string other than the four aliases is rejected, and the session left
unchanged, when `strtol` finds no number in it or when a character that is
not white space follows the number. -/
theorem parse_glx_swap_method_rejects (ps : session_t) (str : CStr)
    (h1 : str ≠ "undefined".toList) (h2 : str ≠ "copy".toList)
    (h3 : str ≠ "exchange".toList) (h4 : str ≠ "buffer-age".toList) :
    ((strtol str 0).2 = 0 → parse_glx_swap_method ps str = (false, ps)) ∧
    ((∃ c ∈ str.drop (strtol str 0).2, isspace c = false) →
      parse_glx_swap_method ps str = (false, ps)) := by
  rw [parse_glx_swap_method_number ps str h1 h2 h3 h4]
  refine ⟨?_, ?_⟩
  · intro hk
    rw [if_pos hk]
  · rintro ⟨c, hc, hcs⟩
    by_cases hk : (strtol str 0).2 = 0
    · rw [if_pos hk]
    · have hany : (str.drop (strtol str 0).2).any (fun c => !isspace c) = true := by
        rw [List.any_eq_true]
        exact ⟨c, hc, by simp [hcs]⟩
      rw [if_neg hk, hany, if_pos rfl]

/-- C7, the failing input: `strtol` reads `4294967296` as the `long` 2^32 with
nothing after it, a value outside `-1 .. CGLX_MAX_BUFFER_AGE + 1`; the
conversion to `int` turns it into 0, so `parse_glx_swap_method` returns true
and stores 0 as the swap method. -/
theorem parse_glx_swap_method_long_truncated (ps : session_t) :
    strtol "4294967296".toList 0 = (4294967296, 10) ∧
    "4294967296".toList.drop 10 = [] ∧
    (LONG_MIN ≤ 4294967296 ∧ (4294967296 : Int) ≤ LONG_MAX) ∧
    ¬ ((-1 : Int) ≤ 4294967296 ∧ (4294967296 : Int) ≤ CGLX_MAX_BUFFER_AGE + 1) ∧
    parse_glx_swap_method ps "4294967296".toList
      = (true, { ps with o := { ps.o with glx_swap_method := 0 } }) := by
  have hs : strtol "4294967296".toList 0 = (4294967296, 10) := by decide
  refine ⟨hs, by decide, by decide, by decide, ?_⟩
  rw [parse_glx_swap_method_number ps _ (by decide) (by decide) (by decide) (by decide), hs]
  have hc : long_to_int 4294967296 = 0 := by decide
  simp only [hc]
  rw [if_neg (by decide), if_neg (by decide), if_neg (by decide)]

/-- In the same way a number beyond the range of `long`, which `strtol` clamps
to `LONG_MAX`, is accepted as -1, the constant `SWAPM_BUFFER_AGE`. -/
theorem parse_glx_swap_method_clamped (ps : session_t) :
    parse_glx_swap_method ps "99999999999999999999".toList
      = (true, { ps with o := { ps.o with glx_swap_method := -1 } }) := by
  have hs : strtol "99999999999999999999".toList 0 = (9223372036854775807, 20) := by decide
  rw [parse_glx_swap_method_number ps _ (by decide) (by decide) (by decide) (by decide), hs]
  have hc : long_to_int 9223372036854775807 = -1 := by decide
  simp only [hc]
  rw [if_neg (by decide), if_neg (by decide), if_neg (by decide)]

/-! ## Theorems: focus, paint mode and damage history -/

/-- C12: `find_focused` returns a record `w` exactly when focus tracking is
enabled, `w` is the active window of the session and the map state of `w` is
viewable; in every other case it returns NULL. -/
theorem find_focused_correct (ps : session_t) :
    (∀ w, find_focused ps = some w ↔
      ps.o.track_focus = true ∧ ps.active_win = some w ∧
        w.a.map_state = XCB_MAP_STATE_VIEWABLE) ∧
    (find_focused ps = none ↔
      ¬ ∃ w, ps.o.track_focus = true ∧ ps.active_win = some w ∧
        w.a.map_state = XCB_MAP_STATE_VIEWABLE) := by
  cases htf : ps.o.track_focus with
  | false =>
    have hres : find_focused ps = none := by simp [find_focused, htf]
    rw [hres]
    refine ⟨fun w => ⟨fun h => ?_, fun h => ?_⟩, fun _ => ?_, fun _ => rfl⟩
    · cases h
    · cases h.1
    · rintro ⟨w, h, _⟩
      cases h
  | true =>
    cases haw : ps.active_win with
    | none =>
      have hres : find_focused ps = none := by simp [find_focused, htf, haw]
      rw [hres]
      refine ⟨fun w => ⟨fun h => ?_, fun h => ?_⟩, fun _ => ?_, fun _ => rfl⟩
      · cases h
      · cases h.2.1
      · rintro ⟨w, _, h, _⟩
        cases h
    | some v =>
      by_cases hv : v.a.map_state = XCB_MAP_STATE_VIEWABLE
      · have hres : find_focused ps = some v := by
          simp [find_focused, win_is_focused_real, htf, haw, hv]
        rw [hres]
        refine ⟨fun w => ⟨fun h => ?_, fun h => h.2.1⟩, fun h => ?_, fun h => ?_⟩
        · cases h
          exact ⟨rfl, rfl, hv⟩
        · cases h
        · exact absurd ⟨v, rfl, rfl, hv⟩ h
      · have hres : find_focused ps = none := by
          simp [find_focused, win_is_focused_real, htf, haw, hv]
        rw [hres]
        refine ⟨fun w => ⟨fun h => ?_, fun h => ?_⟩, fun _ => ?_, fun _ => rfl⟩
        · cases h
        · obtain ⟨_, h1, h2⟩ := h
          cases h1
          exact absurd h2 hv
        · rintro ⟨w, _, h1, h2⟩
          cases h1
          exact hv h2

/-- C16: `win_is_solid` returns true exactly when the mode of the window is
`WMODE_SOLID` and the option `force_win_blend` is off; with
`force_win_blend` on it is false for every window. -/
theorem win_is_solid_correct (WMODE_SOLID : Nat) (ps : session_t) (w : win) :
    (win_is_solid WMODE_SOLID ps w = true ↔
      w.mode = WMODE_SOLID ∧ ps.o.force_win_blend = false) ∧
    (ps.o.force_win_blend = true → ∀ v : win, win_is_solid WMODE_SOLID ps v = false) := by
  unfold win_is_solid
  constructor
  · cases ps.o.force_win_blend with
    | false =>
      simp only [Bool.not_false, Bool.and_true, decide_eq_true_eq, and_true]
      exact eq_comm
    | true => simp
  · intro h v
    rw [h]
    simp

/-- C17: on a session whose damage history holds `CGLX_MAX_BUFFER_AGE`
regions, `free_all_damage_last` makes each of them the empty region and
changes nothing else; in particular the pending region `all_damage` is
unchanged. -/
theorem free_all_damage_last_correct (ps : session_t)
    (hlen : ps.all_damage_last.length = CGLX_MAX_BUFFER_AGE.toNat) :
    free_all_damage_last ps = { ps with all_damage_last := [[], [], [], [], []] } ∧
    (free_all_damage_last ps).all_damage_last.length = 5 ∧
    (∀ r ∈ (free_all_damage_last ps).all_damage_last, r = []) ∧
    (free_all_damage_last ps).all_damage = ps.all_damage := by
  have hmain : free_all_damage_last ps = { ps with all_damage_last := [[], [], [], [], []] } := by
    obtain ⟨o, d, dl, ih, it, l, aw⟩ := ps
    match dl, hlen with
    | [_, _, _, _, _], _ => rfl
  rw [hmain]
  refine ⟨rfl, rfl, ?_, rfl⟩
  intro r hr
  simp only [List.mem_cons, List.mem_singleton, List.not_mem_nil, or_false, or_self] at hr
  exact hr

/-- Witness of C17: a session with pending damage and two non-empty regions
in the damage history. -/
theorem free_all_damage_last_correct_witness :
    free_all_damage_last
        { all_damage := [⟨0, 0, 4, 4⟩],
          all_damage_last := [[⟨0, 0, 1, 1⟩], [], [⟨1, 1, 2, 2⟩, ⟨5, 5, 6, 6⟩], [], []] }
      = { ({ all_damage := [⟨0, 0, 4, 4⟩],
             all_damage_last := [[⟨0, 0, 1, 1⟩], [], [⟨1, 1, 2, 2⟩, ⟨5, 5, 6, 6⟩], [], []] }
            : session_t) with all_damage_last := [[], [], [], [], []] } ∧
    (free_all_damage_last
        { all_damage := [⟨0, 0, 4, 4⟩],
          all_damage_last := [[⟨0, 0, 1, 1⟩], [], [⟨1, 1, 2, 2⟩, ⟨5, 5, 6, 6⟩], [], []] }
      ).all_damage_last.length = 5 ∧
    (∀ r ∈ (free_all_damage_last
        { all_damage := [⟨0, 0, 4, 4⟩],
          all_damage_last := [[⟨0, 0, 1, 1⟩], [], [⟨1, 1, 2, 2⟩, ⟨5, 5, 6, 6⟩], [], []] }
      ).all_damage_last, r = []) ∧
    (free_all_damage_last
        { all_damage := [⟨0, 0, 4, 4⟩],
          all_damage_last := [[⟨0, 0, 1, 1⟩], [], [⟨1, 1, 2, 2⟩, ⟨5, 5, 6, 6⟩], [], []] }
      ).all_damage = [⟨0, 0, 4, 4⟩] :=
  free_all_damage_last_correct
    { all_damage := [⟨0, 0, 4, 4⟩],
      all_damage_last := [[⟨0, 0, 1, 1⟩], [], [⟨1, 1, 2, 2⟩, ⟨5, 5, 6, 6⟩], [], []] }
    (by decide)

/-! ## Theorems: the backends -/

/-- C13, counterexample: `enum backend` has three pairwise distinct members
below `NUM_BKEND`, `parse_backend` stores each of them for some argument, and
no two values cover all members below `NUM_BKEND`. -/
theorem backend_three_values :
    (BKEND_XRENDER < NUM_BKEND ∧ BKEND_GLX < NUM_BKEND ∧ BKEND_XR_GLX_HYBRID < NUM_BKEND) ∧
    (BKEND_XRENDER ≠ BKEND_GLX ∧ BKEND_XRENDER ≠ BKEND_XR_GLX_HYBRID ∧
      BKEND_GLX ≠ BKEND_XR_GLX_HYBRID) ∧
    parse_backend backend_strs_sample {} "xrender".toList
      = some (true, { o := { backend := BKEND_XRENDER } }) ∧
    parse_backend backend_strs_sample {} "glx".toList
      = some (true, { o := { backend := BKEND_GLX } }) ∧
    parse_backend backend_strs_sample {} "xr-glx-hybrid".toList
      = some (true, { o := { backend := BKEND_XR_GLX_HYBRID } }) ∧
    ¬ ∃ a b : Nat, ∀ v, v < NUM_BKEND → v = a ∨ v = b := by
  refine ⟨by decide, by decide, by decide, by decide, by decide, ?_⟩
  rintro ⟨a, b, h⟩
  have h0 := h 0 (by decide)
  have h1 := h 1 (by decide)
  have h2 := h 2 (by decide)
  omega

/-- C13, amended: on a table of `NUM_BKEND` names followed by NULL, every
backend that `parse_backend` stores is one of the three members
`BKEND_XRENDER`, `BKEND_GLX` and `BKEND_XR_GLX_HYBRID` of `enum backend`;
these are pairwise distinct and are exactly the values below `NUM_BKEND`. -/
theorem parse_backend_three_variants (names : List CStr) (ps ps1 : session_t) (str : CStr)
    (hlen : names.length = NUM_BKEND)
    (h : parse_backend (names.map some ++ [none]) ps str = some (true, ps1)) :
    (ps1.o.backend = BKEND_XRENDER ∨ ps1.o.backend = BKEND_GLX ∨
      ps1.o.backend = BKEND_XR_GLX_HYBRID) ∧
    (BKEND_XRENDER ≠ BKEND_GLX ∧ BKEND_XRENDER ≠ BKEND_XR_GLX_HYBRID ∧
      BKEND_GLX ≠ BKEND_XR_GLX_HYBRID) ∧
    (∀ v, v < NUM_BKEND ↔
      (v = BKEND_XRENDER ∨ v = BKEND_GLX ∨ v = BKEND_XR_GLX_HYBRID)) := by
  have hall : ∀ v, v < NUM_BKEND ↔
      (v = BKEND_XRENDER ∨ v = BKEND_GLX ∨ v = BKEND_XR_GLX_HYBRID) := by
    intro v
    unfold NUM_BKEND BKEND_XRENDER BKEND_GLX BKEND_XR_GLX_HYBRID
    omega
  refine ⟨?_, by decide, hall⟩
  have hterm : none ∈ (names.map some ++ [none] : strtab) := by simp
  have hlt : ps1.o.backend < NUM_BKEND := by
    unfold parse_backend at h
    rcases strtab_scan_spec str (names.map some ++ [none]) 0 hterm with ⟨k, hk, hfm⟩ | ⟨hk, _⟩
    · rw [Nat.zero_add] at hk
      rw [hk] at h
      have hkl := first_match_lt_length _ _ _ hfm
      rw [strtab_entries_names, hlen] at hkl
      cases h
      exact hkl
    · rw [hk] at h
      dsimp only at h
      split_ifs at h
      · cases h
        show BKEND_XR_GLX_HYBRID < NUM_BKEND
        decide
      · cases h
        show BKEND_XR_GLX_HYBRID < NUM_BKEND
        decide
      · cases h
  exact (hall _).mp hlt

/-- Witness of C13, amended: the sample table and the argument `GLX`. -/
theorem parse_backend_three_variants_witness :
    (({ o := { backend := BKEND_GLX } } : session_t).o.backend = BKEND_XRENDER ∨
      ({ o := { backend := BKEND_GLX } } : session_t).o.backend = BKEND_GLX ∨
      ({ o := { backend := BKEND_GLX } } : session_t).o.backend = BKEND_XR_GLX_HYBRID) ∧
    (BKEND_XRENDER ≠ BKEND_GLX ∧ BKEND_XRENDER ≠ BKEND_XR_GLX_HYBRID ∧
      BKEND_GLX ≠ BKEND_XR_GLX_HYBRID) ∧
    (∀ v, v < NUM_BKEND ↔
      (v = BKEND_XRENDER ∨ v = BKEND_GLX ∨ v = BKEND_XR_GLX_HYBRID)) :=
  parse_backend_three_variants ["xrender".toList, "glx".toList, "xr_glx_hybrid".toList]
    {} { o := { backend := BKEND_GLX } } "GLX".toList (by decide) (by decide)

/-! ## Theorems: the window list under the registry invariant -/

/-- Under the registry invariant two live records of the list with the same
id are the same record. -/
theorem one_live_per_id_unique (l : List win) (hinv : one_live_per_id l) (v w : win)
    (hv : v ∈ l) (hw : w ∈ l) (hvd : v.destroyed = false) (hwd : w.destroyed = false)
    (hid : v.id = w.id) : v = w := by
  unfold one_live_per_id at hinv
  have hv1 : v ∈ l.filter (fun w => !w.destroyed) := by
    rw [List.mem_filter]
    exact ⟨hv, by simp [hvd]⟩
  have hw1 : w ∈ l.filter (fun w => !w.destroyed) := by
    rw [List.mem_filter]
    exact ⟨hw, by simp [hwd]⟩
  exact List.inj_on_of_nodup_map hinv hv1 hw1 hid

/-- Under the registry invariant the loop of `find_win` returns `w` exactly
when `w` is a live record of the list with the id. -/
theorem find_win_loop_eq_some_iff (id : Nat) (l : List win) (hinv : one_live_per_id l)
    (w : win) :
    find_win_loop id l = some w ↔ w ∈ l ∧ w.id = id ∧ w.destroyed = false := by
  constructor
  · intro h
    obtain ⟨h1, h2, pre, post, h3, _⟩ := find_win_loop_eq_some id l w h
    refine ⟨?_, h1, h2⟩
    rw [h3]
    simp
  · rintro ⟨hw, hid, hd⟩
    cases hres : find_win_loop id l with
    | none =>
      exact absurd ⟨hid, hd⟩ ((find_win_loop_eq_none id l).mp hres w hw)
    | some v =>
      obtain ⟨h1, h2, pre, post, h3, _⟩ := find_win_loop_eq_some id l v hres
      have hv : v ∈ l := by
        rw [h3]
        simp
      rw [one_live_per_id_unique l hinv v w hv hw h2 hd (h1.trans hid.symm)]

/-- The registry invariant does not depend on the order of the list. -/
theorem one_live_per_id_perm (l1 l2 : List win) (hperm : l1.Perm l2)
    (hinv : one_live_per_id l2) : one_live_per_id l1 := by
  unfold one_live_per_id at *
  exact (((hperm.filter _).map _).nodup_iff).mpr hinv

/-- C15: under the registry invariant (at most one live record per window id)
the result of `find_win` is the same for every permutation of the window
list; a returned record is the unique live record of the list with the id,
and NULL is returned exactly when the id is 0 or the list holds no live record
with the id. -/
theorem find_win_order_independent (ps : session_t) (id : Nat) (l1 : List win)
    (hinv : one_live_per_id ps.list) (hperm : l1.Perm ps.list) :
    find_win { ps with list := l1 } id = find_win ps id ∧
    (∀ w, find_win ps id = some w →
      w ∈ ps.list ∧ w.id = id ∧ w.destroyed = false ∧
        ∀ v ∈ ps.list, v.id = id → v.destroyed = false → v = w) ∧
    (find_win ps id = none ↔
      id = 0 ∨ ∀ v ∈ ps.list, ¬ (v.id = id ∧ v.destroyed = false)) := by
  unfold find_win
  by_cases h0 : id = 0
  · simp [h0]
  · simp only [if_neg h0]
    have hinv1 := one_live_per_id_perm l1 ps.list hperm hinv
    refine ⟨?_, ?_, ?_⟩
    · apply Option.ext
      intro w
      rw [Option.mem_def, Option.mem_def, find_win_loop_eq_some_iff id l1 hinv1 w,
        find_win_loop_eq_some_iff id ps.list hinv w, hperm.mem_iff]
    · intro w hw
      obtain ⟨h1, h2, h3⟩ := (find_win_loop_eq_some_iff id ps.list hinv w).mp hw
      refine ⟨h1, h2, h3, ?_⟩
      intro v hv hvid hvd
      exact one_live_per_id_unique ps.list hinv v w hv h1 hvd h3 (hvid.trans h2.symm)
    · rw [find_win_loop_eq_none]
      simp [h0]

/-- Witness of C15: a list with a destroyed and a live record of id 3, and
the permutation that puts the destroyed record first. -/
theorem find_win_order_independent_witness :
    find_win { ({ list := [{ id := 3 }, { id := 4 }, { id := 3, destroyed := true }] }
        : session_t) with
        list := [{ id := 3, destroyed := true }, { id := 4 }, { id := 3 }] } 3
      = find_win { list := [{ id := 3 }, { id := 4 }, { id := 3, destroyed := true }] } 3 ∧
    (∀ w, find_win { list := [{ id := 3 }, { id := 4 }, { id := 3, destroyed := true }] } 3
        = some w →
      w ∈ ({ list := [{ id := 3 }, { id := 4 }, { id := 3, destroyed := true }] }
        : session_t).list ∧ w.id = 3 ∧ w.destroyed = false ∧
        ∀ v ∈ ({ list := [{ id := 3 }, { id := 4 }, { id := 3, destroyed := true }] }
          : session_t).list, v.id = 3 → v.destroyed = false → v = w) ∧
    (find_win { list := [{ id := 3 }, { id := 4 }, { id := 3, destroyed := true }] } 3 = none ↔
      3 = 0 ∨ ∀ v ∈ ({ list := [{ id := 3 }, { id := 4 }, { id := 3, destroyed := true }] }
        : session_t).list, ¬ (v.id = 3 ∧ v.destroyed = false)) :=
  find_win_order_independent
    { list := [{ id := 3 }, { id := 4 }, { id := 3, destroyed := true }] } 3
    [{ id := 3, destroyed := true }, { id := 4 }, { id := 3 }]
    (by decide) (by decide)

/-! ## Theorems: the error-ignore list -/

/-- A read after a write returns the written node at the written address and
the old contents elsewhere. -/
theorem heap_read_write (mem : ignore_heap) (a b : Nat) (n : ignore_t) :
    heap_read (heap_write mem a n) b = if a = b then some n else heap_read mem b := by
  unfold heap_write
  rw [heap_read]

/-- The empty queue: the start pointer is NULL and the tail is the place that
holds it. -/
theorem ignore_chain_nil (mem : ignore_heap) (r tail : ignore_ref) (p : Option Nat) :
    ignore_chain mem r p [] tail = true ↔ p = none ∧ tail = r := by
  simp [ignore_chain]

/-- A queue with a first entry: the start pointer is the address of a node
with this sequence number, and the rest of the queue starts at its `next`
member. -/
theorem ignore_chain_cons (mem : ignore_heap) (r tail : ignore_ref) (p : Option Nat)
    (s : Nat) (q : List Nat) :
    ignore_chain mem r p (s :: q) tail = true ↔
      ∃ a n, p = some a ∧ heap_read mem a = some n ∧ n.sequence = s ∧
        ignore_chain mem (ignore_ref.next a) n.next q tail = true := by
  cases p with
  | none => simp [ignore_chain]
  | some a =>
    cases h : heap_read mem a with
    | none => simp [ignore_chain, h]
    | some n =>
      simp only [ignore_chain, h, Bool.and_eq_true, decide_eq_true_eq]
      constructor
      · rintro ⟨h1, h2⟩
        exact ⟨a, n, rfl, h, h1, h2⟩
      · rintro ⟨a1, n1, ha, hn, h1, h2⟩
        cases ha
        rw [h] at hn
        cases hn
        exact ⟨h1, h2⟩

/-- The linked list determines the queue: two lists of sequence numbers read
from the same start pointer are equal. -/
theorem ignore_chain_unique (mem : ignore_heap) (q1 q2 : List Nat) (r : ignore_ref)
    (p : Option Nat) (t1 t2 : ignore_ref)
    (h1 : ignore_chain mem r p q1 t1 = true) (h2 : ignore_chain mem r p q2 t2 = true) :
    q1 = q2 := by
  induction q1 generalizing q2 r p with
  | nil =>
    cases q2 with
    | nil => rfl
    | cons s2 q2 =>
      obtain ⟨hp, _⟩ := (ignore_chain_nil _ _ _ _).mp h1
      obtain ⟨a, n, hp2, _⟩ := (ignore_chain_cons _ _ _ _ _ _).mp h2
      rw [hp] at hp2
      cases hp2
  | cons s1 q1 ih =>
    obtain ⟨a, n, hp, hn, hs, hrest⟩ := (ignore_chain_cons _ _ _ _ _ _).mp h1
    cases q2 with
    | nil =>
      obtain ⟨hp2, _⟩ := (ignore_chain_nil _ _ _ _).mp h2
      rw [hp] at hp2
      cases hp2
    | cons s2 q2 =>
      obtain ⟨a2, n2, hp2, hn2, hs2, hrest2⟩ := (ignore_chain_cons _ _ _ _ _ _).mp h2
      rw [hp] at hp2
      cases hp2
      rw [hn] at hn2
      cases hn2
      rw [← hs, ← hs2, ih q2 _ _ hrest hrest2]

/-- The tail of a non-empty queue is the `next` member of an allocated node,
and this member holds the NULL pointer. -/
theorem ignore_chain_tail (mem : ignore_heap) (q : List Nat) (r : ignore_ref)
    (p : Option Nat) (tail : ignore_ref) (hne : q ≠ [])
    (h : ignore_chain mem r p q tail = true) :
    ∃ a n, tail = ignore_ref.next a ∧ heap_read mem a = some n ∧ n.next = none := by
  induction q generalizing r p with
  | nil => exact absurd rfl hne
  | cons s q ih =>
    obtain ⟨a, n, _, hn, _, hrest⟩ := (ignore_chain_cons _ _ _ _ _ _).mp h
    cases q with
    | nil =>
      obtain ⟨hnext, ht⟩ := (ignore_chain_nil _ _ _ _).mp hrest
      exact ⟨a, n, ht, hn, hnext⟩
    | cons s1 q1 => exact ih _ _ (by simp) hrest

/-- The two stores of `set_ignore` on a non-empty queue: after the new node
`i` is written and linked behind the last node `a`, the list holds the old
sequence numbers followed by the new one and its tail is the `next` member of
the new node. -/
theorem ignore_chain_link (mem : ignore_heap) (i a s : Nat) (n : ignore_t)
    (hfresh : heap_read mem i = none) (ha : heap_read mem a = some n) (hnext : n.next = none)
    (q : List Nat) (r : ignore_ref) (p : Option Nat) (hne : q ≠ [])
    (h : ignore_chain mem r p q (ignore_ref.next a) = true) :
    ignore_chain
        (heap_write (heap_write mem i { sequence := s, next := none }) a
          { n with next := some i })
        r p (q ++ [s]) (ignore_ref.next i) = true := by
  have hai : a ≠ i := by
    intro hc
    rw [hc, hfresh] at ha
    cases ha
  induction q generalizing r p with
  | nil => exact absurd rfl hne
  | cons s0 q0 ih =>
    obtain ⟨a0, n0, hp, hn0, hs0, hrest⟩ := (ignore_chain_cons _ _ _ _ _ _).mp h
    cases q0 with
    | nil =>
      obtain ⟨_, ht⟩ := (ignore_chain_nil _ _ _ _).mp hrest
      cases ht
      rw [ha] at hn0
      cases hn0
      rw [List.singleton_append, ignore_chain_cons]
      refine ⟨a, { n with next := some i }, hp, ?_, hs0, ?_⟩
      · rw [heap_read_write, if_pos rfl]
      · rw [ignore_chain_cons]
        refine ⟨i, { sequence := s, next := none }, rfl, ?_, rfl, ?_⟩
        · rw [heap_read_write, if_neg hai, heap_read_write, if_pos rfl]
        · rw [ignore_chain_nil]
          exact ⟨rfl, rfl⟩
    | cons s1 q1 =>
      have ha0 : a ≠ a0 := by
        intro hc
        obtain ⟨a1, n1, hp1, _⟩ := (ignore_chain_cons _ _ _ _ _ _).mp hrest
        rw [← hc, ha] at hn0
        cases hn0
        rw [hnext] at hp1
        cases hp1
      have hi0 : i ≠ a0 := by
        intro hc
        rw [← hc, hfresh] at hn0
        cases hn0
      rw [List.cons_append, ignore_chain_cons]
      refine ⟨a0, n0, hp, ?_, hs0, ih _ _ (by simp) hrest⟩
      rw [heap_read_write, if_neg ha0, heap_read_write, if_neg hi0]
      exact hn0

/-- One call of `set_ignore` with `show_all_xerrors` off and a fresh node:
the call returns and the queue becomes the old queue followed by the new
sequence number. -/
theorem set_ignore_spec (mem : ignore_heap) (ps : session_t) (q : List Nat) (s i : Nat)
    (hq : ignore_queue mem ps q = true) (hoff : ps.o.show_all_xerrors = false)
    (hfresh : heap_read mem i = none) :
    ∃ mem1 ps1, set_ignore mem ps s (some i) = some (mem1, ps1) ∧
      ignore_queue mem1 ps1 (q ++ [s]) = true := by
  unfold ignore_queue at hq
  unfold set_ignore
  rw [hoff]
  simp only [Bool.false_eq_true, if_false]
  cases q with
  | nil =>
    obtain ⟨hhead, htail⟩ := (ignore_chain_nil _ _ _ _).mp hq
    rw [htail]
    refine ⟨_, _, rfl, ?_⟩
    unfold ignore_queue
    rw [List.nil_append, ignore_chain_cons]
    refine ⟨i, { sequence := s, next := none }, rfl, ?_, rfl, ?_⟩
    · rw [heap_read_write, if_pos rfl]
    · rw [ignore_chain_nil]
      exact ⟨rfl, rfl⟩
  | cons s0 q0 =>
    obtain ⟨a, n, htail, ha, hnext⟩ := ignore_chain_tail mem (s0 :: q0) _ _ _ (by simp) hq
    have hai : i ≠ a := by
      intro hc
      rw [← hc, hfresh] at ha
      cases ha
    have hread : heap_read (heap_write mem i { sequence := s, next := none }) a = some n := by
      rw [heap_read_write, if_neg hai]
      exact ha
    rw [htail]
    simp only [hread]
    refine ⟨_, _, rfl, ?_⟩
    unfold ignore_queue
    rw [htail] at hq
    exact ignore_chain_link mem i a s n hfresh ha hnext (s0 :: q0) _ _ (by simp) hq

/-- A sorted list stays sorted when a value not below its last entry is put
behind it. -/
theorem sorted_append_last (q : List Nat) (s : Nat) (hs : q.Sorted (· ≤ ·))
    (hlast : ∀ x ∈ q.getLast?, x ≤ s) : (q ++ [s]).Sorted (· ≤ ·) := by
  unfold List.Sorted at *
  rw [List.pairwise_append]
  refine ⟨hs, List.pairwise_singleton _ _, ?_⟩
  intro x hx y hy
  rw [List.mem_singleton] at hy
  rw [hy]
  rcases List.eq_nil_or_concat q with hnil | ⟨init, z, hq⟩
  · rw [hnil] at hx
    cases hx
  · rw [hq] at hx hs hlast
    have hz : z ≤ s := hlast z (by simp)
    rw [List.concat_eq_append] at hx hs
    rw [List.pairwise_append] at hs
    rcases List.mem_append.mp hx with hx1 | hx1
    · exact le_trans (hs.2.2 x hx1 z (by simp)) hz
    · rw [List.mem_singleton] at hx1
      rw [hx1]
      exact hz

/-- C11: with `show_all_xerrors` off and a successful allocation of a fresh
node, `set_ignore` returns and turns the queue `q` into `q` followed by the
new sequence number; with `show_all_xerrors` on nothing changes. -/
theorem set_ignore_appends (mem : ignore_heap) (ps : session_t) (q : List Nat) (s : Nat)
    (hq : ignore_queue mem ps q = true) :
    (ps.o.show_all_xerrors = false → ∀ i, heap_read mem i = none →
      ∃ mem1 ps1, set_ignore mem ps s (some i) = some (mem1, ps1) ∧
        ignore_queue mem1 ps1 (q ++ [s]) = true) ∧
    (ps.o.show_all_xerrors = true →
      ∀ cmalloc, set_ignore mem ps s cmalloc = some (mem, ps)) := by
  constructor
  · intro hoff i hfresh
    exact set_ignore_spec mem ps q s i hq hoff hfresh
  · intro hon cmalloc
    unfold set_ignore
    rw [hon, if_pos rfl]

/-- Witness of C11: a queue with the one entry 5, in the node at address 100. -/
theorem set_ignore_appends_witness :
    ignore_queue [(100, { sequence := 5 })]
      { ignore_head := some 100, ignore_tail := ignore_ref.next 100 } [5] = true ∧
    ((({ ignore_head := some 100, ignore_tail := ignore_ref.next 100 } : session_t)
        ).o.show_all_xerrors = false →
      ∀ i, heap_read [(100, { sequence := 5 })] i = none →
      ∃ mem1 ps1, set_ignore [(100, { sequence := 5 })]
          { ignore_head := some 100, ignore_tail := ignore_ref.next 100 } 7 (some i)
          = some (mem1, ps1) ∧
        ignore_queue mem1 ps1 ([5] ++ [7]) = true) ∧
    ((({ ignore_head := some 100, ignore_tail := ignore_ref.next 100 } : session_t)
        ).o.show_all_xerrors = true →
      ∀ cmalloc, set_ignore [(100, { sequence := 5 })]
          { ignore_head := some 100, ignore_tail := ignore_ref.next 100 } 7 cmalloc
        = some ([(100, { sequence := 5 })],
            { ignore_head := some 100, ignore_tail := ignore_ref.next 100 })) :=
  ⟨by decide,
   set_ignore_appends [(100, { sequence := 5 })]
     { ignore_head := some 100, ignore_tail := ignore_ref.next 100 } [5] 7 (by decide)⟩

/-- C14: if the queue is in non-decreasing order and `set_ignore` is called
with a sequence number not below the last entry of the queue, the call
returns and the queue after it, the old queue or the old queue followed by
the new number, is again in non-decreasing order. -/
theorem set_ignore_sorted (mem : ignore_heap) (ps : session_t) (q : List Nat) (s : Nat)
    (cmalloc : Option Nat)
    (hq : ignore_queue mem ps q = true)
    (hfresh : ∀ i, cmalloc = some i → heap_read mem i = none)
    (hsorted : q.Sorted (· ≤ ·))
    (hlast : ∀ x ∈ q.getLast?, x ≤ s) :
    ∃ mem1 ps1 q1, set_ignore mem ps s cmalloc = some (mem1, ps1) ∧
      ignore_queue mem1 ps1 q1 = true ∧ (q1 = q ∨ q1 = q ++ [s]) ∧
      q1.Sorted (· ≤ ·) := by
  cases hx : ps.o.show_all_xerrors with
  | true =>
    refine ⟨mem, ps, q, ?_, hq, Or.inl rfl, hsorted⟩
    unfold set_ignore
    rw [hx, if_pos rfl]
  | false =>
    cases cmalloc with
    | none =>
      refine ⟨mem, ps, q, ?_, hq, Or.inl rfl, hsorted⟩
      unfold set_ignore
      rw [hx]
      rfl
    | some i =>
      obtain ⟨mem1, ps1, h1, h2⟩ := set_ignore_spec mem ps q s i hq hx (hfresh i rfl)
      exact ⟨mem1, ps1, q ++ [s], h1, h2, Or.inr rfl, sorted_append_last q s hsorted hlast⟩

/-- Witness of C14: the sorted queue 5, 7 and the new sequence number 7. -/
theorem set_ignore_sorted_witness :
    ∃ mem1 ps1 q1,
      set_ignore [(100, { sequence := 5, next := some 200 }), (200, { sequence := 7 })]
          { ignore_head := some 100, ignore_tail := ignore_ref.next 200 } 7 (some 300)
        = some (mem1, ps1) ∧
      ignore_queue mem1 ps1 q1 = true ∧ (q1 = [5, 7] ∨ q1 = [5, 7] ++ [7]) ∧
      q1.Sorted (· ≤ ·) :=
  set_ignore_sorted [(100, { sequence := 5, next := some 200 }), (200, { sequence := 7 })]
    { ignore_head := some 100, ignore_tail := ignore_ref.next 200 } [5, 7] 7 (some 300)
    (by decide)
    (by
      intro i hi
      cases hi
      decide)
    (by decide)
    (by
      intro x hx
      cases hx
      decide)

end Compton
